import Mathlib

/-!
Verification of the session-log parsing and analytics engine of the
claude-code-chat-browser repository against its natural-language
specification.

The embedding is shallow: Python values decoded from a JSONL line are
modelled by the inductive type `Val` (JSON numbers appear as integers:
none of the verified code paths manipulates fractional JSON numbers,
and Python floats never flow into the accumulators under scrutiny).
Python `None` is `Val.null`.  Operations that can raise a Python
runtime error (attribute access on a non-dict, `len` of an unsized
value, adding an unhashable value to a set, ...) are modelled in the
`Except String` monad, the error string naming the Python exception.

Sources embedded here:
  - src/utils/exclusion_rules.py  (rule evaluation)
  - src/utils/jsonl_parser.py     (session parsing, tool-result classifier)
  - src/utils/session_stats.py    (statistics engine)
-/

namespace CCCB

/-- A decoded JSON / Python value.  `null` doubles as Python `None`. -/
inductive Val where
  | null
  | bool (b : Bool)
  | int (n : Int)
  | str (s : String)
  | list (xs : List Val)
  | dict (fields : List (String × Val))

/-- Python truthiness (`if v:`). -/
def truthy : Val → Bool
  | .null => false
  | .bool b => b
  | .int n => n != 0
  | .str s => s ≠ ""
  | .list xs => !xs.isEmpty
  | .dict xs => !xs.isEmpty

/-- Python hashability: lists and dicts are unhashable, the rest of our
values are hashable. -/
def hashableV : Val → Bool
  | .list _ => false
  | .dict _ => false
  | _ => true

/-- Python `==` restricted to hashable (flat) values; `True == 1` and
`False == 0` as in Python.  Containers (which are unhashable and are
never stored as set elements or dict keys by the code under study)
compare unequal here; every use in this file is guarded by a
hashability check. -/
def flatEq : Val → Val → Bool
  | .null, .null => true
  | .bool a, .bool b => a == b
  | .bool a, .int n => (if a then (1 : Int) else 0) == n
  | .int n, .bool a => n == (if a then (1 : Int) else 0)
  | .int a, .int b => a == b
  | .str a, .str b => a == b
  | _, _ => false

/-- `v == s` for a string literal `s`: true only when `v` is that string
(Python equality between a string and a non-string is `False`). -/
def isStrV (v : Val) (s : String) : Bool :=
  match v with
  | .str t => t = s
  | _ => false

/-- Key lookup in a decoded JSON object (association list).  The decoder
(`json.loads`) never produces duplicate keys, so first-match lookup is
exact. -/
def dget? (d : List (String × Val)) (k : String) : Option Val :=
  (d.find? (fun p => p.1 = k)).map (·.2)

/-- `d.get(k, default)` on a dict value. -/
def dgetD (d : List (String × Val)) (k : String) (dflt : Val) : Val :=
  (dget? d k).getD dflt

/-- `k in d` on a dict value. -/
def dhas (d : List (String × Val)) (k : String) : Bool :=
  (dget? d k).isSome

/-- `v.get(k, default)`: raises `AttributeError` when `v` is not a dict,
exactly where the Python code would. -/
def pyGet (v : Val) (k : String) (dflt : Val) : Except String Val :=
  match v with
  | .dict d => .ok (dgetD d k dflt)
  | _ => .error "AttributeError: .get on a non-dict value"

/-- `d[k] = v` on an association list with Python dict semantics: an
existing key keeps its position and gets the new value, a new key is
appended. -/
def dset (d : List (String × Val)) (k : String) (v : Val) : List (String × Val) :=
  match d with
  | [] => [(k, v)]
  | (k₀, v₀) :: rest =>
      if k₀ = k then (k₀, v) :: rest else (k₀, v₀) :: dset rest k v

/-- `s.add(v)` on a Python set modelled as an insertion-ordered list
without duplicates: unhashable elements raise `TypeError`. -/
def pySetAdd (s : List Val) (v : Val) : Except String (List Val) :=
  if hashableV v then
    .ok (if s.any (flatEq · v) then s else s ++ [v])
  else
    .error "TypeError: unhashable type"

/-- Increment at the first (hence, in a dict, the only) matching key,
appending the key with count 1 when absent. -/
def incrFirst : List (Val × Int) → Val → List (Val × Int)
  | [], k => [(k, 1)]
  | p :: rest, k =>
      if flatEq p.1 k then (p.1, p.2 + 1) :: rest else p :: incrFirst rest k

/-- `counter[k] = counter.get(k, 0) + 1` on a Python dict used as a
counter; unhashable keys raise `TypeError`. -/
def pyIncr (d : List (Val × Int)) (k : Val) : Except String (List (Val × Int)) :=
  if hashableV k then .ok (incrFirst d k)
  else .error "TypeError: unhashable type"

/-- `len(v)`: defined for strings, lists and dicts; `TypeError`
otherwise (this is the crash site of the web-search branch of the
tool-result classifier). -/
def pyLen : Val → Except String Int
  | .str s => .ok s.length
  | .list xs => .ok xs.length
  | .dict xs => .ok xs.length
  | _ => .error "TypeError: object has no len()"

/-- Whether `len(v)` is defined. -/
def sizedV : Val → Bool
  | .str _ => true
  | .list _ => true
  | .dict _ => true
  | _ => false

/-- `(v or 0)` followed by `total += ...`: `None`/falsy values
contribute zero, `True` contributes one, integers contribute
themselves, truthy non-numbers raise `TypeError` at the `+=`. -/
def addTok : Val → Except String Int
  | .null => .ok 0
  | .bool b => .ok (if b then 1 else 0)
  | .int n => .ok n
  | .str s => if s = "" then .ok 0 else .error "TypeError: += of a non-number"
  | .list xs => if xs.isEmpty then .ok 0 else .error "TypeError: += of a non-number"
  | .dict xs => if xs.isEmpty then .ok 0 else .error "TypeError: += of a non-number"

/-- `(v or 0)` as the stored value (the per-message usage snapshot keeps
the truthy value itself, so `True` stays `True`). -/
def orZero (v : Val) : Val :=
  if truthy v then v else .int 0

/-- Characterwise prefix test. -/
def chPre : List Char → List Char → Bool
  | [], _ => true
  | _ :: _, [] => false
  | a :: as, b :: bs => a == b && chPre as bs

/-- Characterwise substring test (`needle in hay` on Python strings). -/
def chSub (needle : List Char) : List Char → Bool
  | [] => chPre needle []
  | b :: bs => chPre needle (b :: bs) || chSub needle bs

/-- `needle in hay` on Python strings. -/
def pyInStr (needle hay : String) : Bool :=
  chSub needle.data hay.data

/-- `s.lower()`: ASCII lower-casing (every string the claims exercise is
ASCII, where Python lower-casing agrees). -/
def strLower (s : String) : String :=
  String.mk (s.data.map Char.toLower)

/-! ## Exclusion Rule Engine (src/utils/exclusion_rules.py)

A tokenized rule as `_tokenize_rule` produces it: the strings `"AND"`
and `"OR"`, or `(kind, value)` term tuples with kind `word` or
`phrase`. -/

inductive RToken where
  | opAnd
  | opOr
  | word (value : String)
  | phrase (value : String)

/-- The term's value; `none` for an operator token (`isinstance(t, tuple)`
in the source distinguishes terms from operators). -/
def RToken.termValue : RToken → Option String
  | .opAnd => none
  | .opOr => none
  | .word v => some v
  | .phrase v => some v

/-- `_term_matches`: case-insensitive substring match for a single term;
an empty value never matches (`if not value: return False`). -/
def _term_matches (value : String) (text : String) : Bool :=
  if value = "" then false
  else pyInStr (strLower value) (strLower text)

/-- One step of the clause-building loop of `_rule_matches`: `OR` closes
the current clause (dropped when empty), `AND` is skipped, terms
accumulate on the current clause. -/
def clauseStep (st : List (List String) × List String) (t : RToken) :
    List (List String) × List String :=
  match t with
  | .opOr => (if st.2 ≠ [] then st.1 ++ [st.2] else st.1, [])
  | .opAnd => st
  | .word v => (st.1, st.2 ++ [v])
  | .phrase v => (st.1, st.2 ++ [v])

/-- Closing the clause loop: a leftover current clause is appended when
nonempty. -/
def clausesOut (fin : List (List String) × List String) : List (List String) :=
  if fin.2 ≠ [] then fin.1 ++ [fin.2] else fin.1

/-- The OR-clause split of `_rule_matches` (also the decomposition the
spec's grammar describes: AND binds tighter than OR, so a rule is a list
of OR-clauses, each a list of terms). -/
def splitClauses (tokens : List RToken) : List (List String) :=
  clausesOut (tokens.foldl clauseStep ([], []))

/-- `_rule_matches`: any OR-clause whose (nonempty) term list matches
entirely. -/
def _rule_matches (tokens : List RToken) (text : String) : Bool :=
  if tokens.isEmpty then false
  else (splitClauses tokens).any fun clause =>
    clause ≠ [] && clause.all (fun v => _term_matches v text)

/-- `is_excluded_by_rules`: any rule matches; empty text or empty rule
list never excludes. -/
def is_excluded_by_rules (rules : List (List RToken)) (text : String) : Bool :=
  if text = "" || rules.isEmpty then false
  else rules.any (fun tokens => _rule_matches tokens text)

/-- Modelled from the spec (§4.7 and claim C5's wording): a term is "a
case-insensitive substring test on the text" with no empty-value
proviso, AND within a clause, OR across clauses, any matching rule
excludes, and empty rules/text never exclude. -/
def specTermMatches (value : String) (text : String) : Bool :=
  pyInStr (strLower value) (strLower text)

/-- Modelled from the spec: a rule matches when some OR-clause's terms
all match under the pure substring test. -/
def specRuleMatches (tokens : List RToken) (text : String) : Bool :=
  (splitClauses tokens).any fun clause =>
    clause ≠ [] && clause.all (fun v => specTermMatches v text)

/-- Modelled from the spec: the rule list excludes the text when some
rule matches it (empty rule list or empty text never exclude). -/
def specExcluded (rules : List (List RToken)) (text : String) : Bool :=
  if text = "" || rules.isEmpty then false
  else rules.any (fun tokens => specRuleMatches tokens text)

/-! ## Tool-Result Classifier (src/utils/jsonl_parser.py, `_parse_tool_result`)

The classified record is built exactly as the Python code builds its
`result` dict: `{"slug": slug}` first, then the branch's assignments in
order.  All branch keys are fresh, so the dict is written as a literal
association list. -/

/-- Whether a value is a dict (`isinstance(tool_result, dict)`). -/
def isDictV : Val → Bool
  | .dict _ => true
  | _ => false

/-- `"filenames" in tool_result and isinstance(tool_result.get("filenames"), list)`. -/
def hasListAt (d : List (String × Val)) (k : String) : Bool :=
  dhas d k && (match dget? d k with
    | some (.list _) => true
    | _ => false)

/-- `isinstance(tool_result.get(k), dict)` guard used by the file-read branch. -/
def hasDictAt (d : List (String × Val)) (k : String) : Bool :=
  dhas d k && (match dget? d k with
    | some (.dict _) => true
    | _ => false)

/-- The bash record of `_parse_tool_result`. -/
def trBash (d : List (String × Val)) (slug : Val) : List (String × Val) :=
  [("slug", slug), ("result_type", .str "bash"),
    ("stdout", dgetD d "stdout" (.str "")),
    ("stderr", dgetD d "stderr" (.str "")),
    ("exit_code", dgetD d "exitCode" .null),
    ("interrupted", dgetD d "interrupted" (.bool false)),
    ("is_error", dgetD d "is_error" (.bool false)),
    ("return_code_interpretation", dgetD d "returnCodeInterpretation" .null)]

/-- The file-edit record of `_parse_tool_result`. -/
def trFileEdit (d : List (String × Val)) (slug : Val) : List (String × Val) :=
  [("slug", slug), ("result_type", .str "file_edit"),
    ("file_path", dgetD d "filePath" (.str "")),
    ("replace_all", dgetD d "replaceAll" (.bool false))]

/-- The file-write record of `_parse_tool_result`. -/
def trFileWrite (d : List (String × Val)) (slug : Val) : List (String × Val) :=
  [("slug", slug), ("result_type", .str "file_write"),
    ("file_path", dgetD d "filePath" (.str ""))]

/-- The glob record of `_parse_tool_result` (the Python default argument
`len(tool_result["filenames"])` is evaluated on the guarded list). -/
def trGlob (d : List (String × Val)) (slug : Val) : List (String × Val) :=
  [("slug", slug), ("result_type", .str "glob"),
    ("num_files", dgetD d "numFiles"
      (.int (match dget? d "filenames" with
        | some (.list l) => l.length
        | _ => 0))),
    ("truncated", dgetD d "truncated" (.bool false)),
    ("duration_ms", dgetD d "durationMs" .null)]

/-- The grep record of `_parse_tool_result`. -/
def trGrep (d : List (String × Val)) (slug : Val) : List (String × Val) :=
  [("slug", slug), ("result_type", .str "grep"),
    ("mode", dgetD d "mode" .null),
    ("num_files", dgetD d "numFiles" (.int 0)),
    ("num_lines", dgetD d "numLines" (.int 0)),
    ("duration_ms", dgetD d "durationMs" .null)]

/-- The file-read record of `_parse_tool_result` (fields of the guarded
nested `file` dict). -/
def trFileRead (d : List (String × Val)) (slug : Val) : List (String × Val) :=
  [("slug", slug), ("result_type", .str "file_read"),
    ("file_path", (match dget? d "file" with
      | some (.dict fd) => dgetD fd "filePath" (.str "")
      | _ => .str "")),
    ("num_lines", (match dget? d "file" with
      | some (.dict fd) => dgetD fd "numLines" .null
      | _ => .null))]

/-- The web-search record of `_parse_tool_result`, given the computed
`len(tool_result.get("results", []))`. -/
def trWebSearch (d : List (String × Val)) (slug : Val) (n : Int) : List (String × Val) :=
  [("slug", slug), ("result_type", .str "web_search"),
    ("query", dgetD d "query" (.str "")),
    ("result_count", .int n),
    ("duration_seconds", dgetD d "durationSeconds" .null)]

/-- The web-fetch record of `_parse_tool_result`. -/
def trWebFetch (d : List (String × Val)) (slug : Val) : List (String × Val) :=
  [("slug", slug), ("result_type", .str "web_fetch"),
    ("url", dgetD d "url" (.str "")),
    ("status_code", dgetD d "code" .null),
    ("duration_ms", dgetD d "durationMs" .null)]

/-- The plain task record of `_parse_tool_result`. -/
def trTask (d : List (String × Val)) (slug : Val) : List (String × Val) :=
  [("slug", slug), ("result_type", .str "task"),
    ("task_id", dgetD d "task_id" .null),
    ("task_type", dgetD d "task_type" .null)]

/-- The task-retrieval record of `_parse_tool_result`. -/
def trTaskRetrieval (d : List (String × Val)) (slug : Val) : List (String × Val) :=
  [("slug", slug), ("result_type", .str "task"),
    ("retrieval_status", dgetD d "retrieval_status" .null),
    ("task_id", (match dget? d "task" with
      | some (.dict td) => dgetD td "task_id" .null
      | _ => .null))]

/-- The completed-subagent task record of `_parse_tool_result`. -/
def trTaskAgent (d : List (String × Val)) (slug : Val) : List (String × Val) :=
  [("slug", slug), ("result_type", .str "task"),
    ("agent_id", dgetD d "agentId" .null),
    ("status", dgetD d "status" .null),
    ("total_duration_ms", dgetD d "totalDurationMs" .null),
    ("total_tokens", dgetD d "totalTokens" .null),
    ("total_tool_use_count", dgetD d "totalToolUseCount" .null)]

/-- The async-launch task record of `_parse_tool_result`. -/
def trTaskAsync (d : List (String × Val)) (slug : Val) : List (String × Val) :=
  [("slug", slug), ("result_type", .str "task"),
    ("agent_id", dgetD d "agentId" .null),
    ("status", dgetD d "status" .null),
    ("description", dgetD d "description" .null)]

/-- The todo-write record of `_parse_tool_result`. -/
def trTodoWrite (d : List (String × Val)) (slug : Val) : List (String × Val) :=
  [("slug", slug), ("result_type", .str "todo_write"),
    ("todo_count", .int (match dgetD d "newTodos" (.list []) with
      | .list l => l.length
      | _ => 0)),
    ("todos", (match dgetD d "newTodos" (.list []) with
      | .list l => .list l
      | _ => .list []))]

/-- The user-input record of `_parse_tool_result`. -/
def trUserInput (d : List (String × Val)) (slug : Val) : List (String × Val) :=
  [("slug", slug), ("result_type", .str "user_input"),
    ("questions", dgetD d "questions" (.list [])),
    ("answers", dgetD d "answers" (.dict []))]

/-- The plan record of `_parse_tool_result`. -/
def trPlan (d : List (String × Val)) (slug : Val) : List (String × Val) :=
  [("slug", slug), ("result_type", .str "plan"),
    ("file_path", dgetD d "filePath" (.str ""))]

/-- The unknown (catch-all) record of `_parse_tool_result`. -/
def trUnknown (slug : Val) : List (String × Val) :=
  [("slug", slug), ("result_type", .str "unknown")]

/-- `_parse_tool_result`: classify an opaque result object by key
presence.  Returns `none` for a non-dict input; the web-search branch
computes `len(tool_result.get("results", []))`, which raises
`TypeError` when that value has no length. -/
def _parse_tool_result (tool_result : Val) (slug : Val) :
    Except String (Option (List (String × Val))) :=
  match tool_result with
  | .dict d =>
    if dhas d "stdout" || dhas d "stderr" then
      .ok (some (trBash d slug))
    else if dhas d "structuredPatch" || (dhas d "filePath" && dhas d "newString") then
      .ok (some (trFileEdit d slug))
    else if dhas d "filePath" && dhas d "content" then
      .ok (some (trFileWrite d slug))
    else if hasListAt d "filenames" then
      .ok (some (trGlob d slug))
    else if dhas d "mode" && dhas d "numFiles" then
      .ok (some (trGrep d slug))
    else if hasDictAt d "file" then
      .ok (some (trFileRead d slug))
    else if dhas d "query" && dhas d "results" then do
      let n ← pyLen (dgetD d "results" (.list []))
      .ok (some (trWebSearch d slug n))
    else if dhas d "url" && dhas d "code" then
      .ok (some (trWebFetch d slug))
    else if dhas d "task_id" || dhas d "message" then
      .ok (some (trTask d slug))
    else if dhas d "retrieval_status" && dhas d "task" then
      .ok (some (trTaskRetrieval d slug))
    else if dhas d "agentId" && dhas d "totalDurationMs" then
      .ok (some (trTaskAgent d slug))
    else if dhas d "agentId" && dhas d "isAsync" then
      .ok (some (trTaskAsync d slug))
    else if dhas d "newTodos" || dhas d "oldTodos" then
      .ok (some (trTodoWrite d slug))
    else if dhas d "questions" && dhas d "answers" then
      .ok (some (trUserInput d slug))
    else if dhas d "plan" && dhas d "filePath" then
      .ok (some (trPlan d slug))
    else
      .ok (some (trUnknown slug))
  | _ => .ok none

/-- Modelled from the spec, §4.3: the `kind` each of the thirteen
fixed-priority key-presence tests selects, first match deciding (the
four `task` variants share priority slot 9). -/
def specKindOfResult (d : List (String × Val)) : String :=
  if dhas d "stdout" || dhas d "stderr" then "bash"
  else if dhas d "structuredPatch" || (dhas d "filePath" && dhas d "newString") then "file_edit"
  else if dhas d "filePath" && dhas d "content" then "file_write"
  else if hasListAt d "filenames" then "glob"
  else if dhas d "mode" && dhas d "numFiles" then "grep"
  else if hasDictAt d "file" then "file_read"
  else if dhas d "query" && dhas d "results" then "web_search"
  else if dhas d "url" && dhas d "code" then "web_fetch"
  else if dhas d "task_id" || dhas d "message" || (dhas d "retrieval_status" && dhas d "task")
      || (dhas d "agentId" && dhas d "totalDurationMs")
      || (dhas d "agentId" && dhas d "isAsync") then "task"
  else if dhas d "newTodos" || dhas d "oldTodos" then "todo_write"
  else if dhas d "questions" && dhas d "answers" then "user_input"
  else if dhas d "plan" && dhas d "filePath" then "plan"
  else "unknown"

/-! ## Session Parser (src/utils/jsonl_parser.py)

The metadata accumulator, as `parse_session` initialises it.  Python
sets are modelled as insertion-ordered duplicate-free lists (only
membership and cardinality matter to the claims).  Omitted relative to
the source, none of it observable by the claims under study:
`session_id` (a function of the file name only), the final
sorted-freeze of the sets, `session_wall_time_seconds` (needs an
ISO-8601 datetime library) and the inferred title. -/

structure Meta where
  models_used : List Val
  total_input_tokens : Int
  total_output_tokens : Int
  total_cache_read_tokens : Int
  total_cache_creation_tokens : Int
  total_tool_calls : Int
  tool_call_counts : List (Val × Int)
  first_timestamp : Val
  last_timestamp : Val
  version : Val
  cwd : Val
  git_branch : Val
  permission_mode : Val
  compactions : Int
  total_ephemeral_5m_tokens : Int
  total_ephemeral_1h_tokens : Int
  service_tiers : List Val
  compact_boundaries : List Val
  api_errors : Int
  files_read : List Val
  files_written : List Val
  files_created : List Val
  bash_commands : List Val
  web_fetches : List Val
  sidechain_messages : Int
  stop_reasons : List (Val × Int)
  entry_counts : List (Val × Int)

/-- The empty accumulator of `parse_session`. -/
def initMeta : Meta where
  models_used := []
  total_input_tokens := 0
  total_output_tokens := 0
  total_cache_read_tokens := 0
  total_cache_creation_tokens := 0
  total_tool_calls := 0
  tool_call_counts := []
  first_timestamp := .null
  last_timestamp := .null
  version := .null
  cwd := .null
  git_branch := .null
  permission_mode := .null
  compactions := 0
  total_ephemeral_5m_tokens := 0
  total_ephemeral_1h_tokens := 0
  service_tiers := []
  compact_boundaries := []
  api_errors := 0
  files_read := []
  files_written := []
  files_created := []
  bash_commands := []
  web_fetches := []
  sidechain_messages := 0
  stop_reasons := []
  entry_counts := []

/-- `_normalize_content`: a string becomes one text block, a list keeps
strings (as text blocks) and dicts, anything else is dropped; any other
shape yields no blocks. -/
def _normalize_content : Val → List (List (String × Val))
  | .str s => [[("type", .str "text"), ("text", .str s)]]
  | .list parts => parts.filterMap fun p =>
      match p with
      | .str s => some [("type", .str "text"), ("text", .str s)]
      | .dict pd => some pd
      | _ => none
  | _ => []

/-- `sep.join(xs)`: every element must be a string (`TypeError`
otherwise). -/
def pyJoin (sep : String) : List Val → Except String String
  | [] => .ok ""
  | [.str s] => .ok s
  | .str s :: rest => do
      let t ← pyJoin sep rest
      .ok (s ++ sep ++ t)
  | _ => .error "TypeError: join of a non-string"

/-- `_extract_text`: the text blocks of a content array, newline-joined. -/
def _extract_text (content : Val) : Except String String :=
  pyJoin "\n" ((_normalize_content content).filterMap fun p =>
    if isStrV (dgetD p "type" .null) "text" then some (dgetD p "text" (.str ""))
    else none)

/-- The base64-image check of `_extract_images` applied to one `source`
value: `source.get(...)` raises `AttributeError` on a non-dict. -/
def imageOfSource (source : Val) : Except String (Option Val) :=
  match source with
  | .dict sd =>
      if isStrV (dgetD sd "type" .null) "base64" && truthy (dgetD sd "data" .null) then
        .ok (some (.dict [("media_type", dgetD sd "media_type" (.str "image/png")),
          ("data", dgetD sd "data" .null)]))
      else .ok none
  | _ => .error "AttributeError: .get on a non-dict value"

/-- The inner loop of `_extract_images` over a nested tool_result
content list. -/
def subImages : List Val → Except String (List Val)
  | [] => .ok []
  | s :: rest => do
      let here ← match s with
        | .dict sd =>
            if isStrV (dgetD sd "type" .null) "image" then do
              let img ← imageOfSource (dgetD sd "source" (.dict []))
              pure (match img with
                | some i => [i]
                | none => [])
            else pure []
        | _ => pure []
      let more ← subImages rest
      .ok (here ++ more)

/-- The main loop of `_extract_images` over normalized content blocks. -/
def imagesLoop : List (List (String × Val)) → Except String (List Val)
  | [] => .ok []
  | p :: rest => do
      let here ←
        if isStrV (dgetD p "type" .null) "image" then do
          let img ← imageOfSource (dgetD p "source" (.dict []))
          pure (match img with
            | some i => [i]
            | none => [])
        else if isStrV (dgetD p "type" .null) "tool_result" then
          match dgetD p "content" (.list []) with
          | .list ns => subImages ns
          | _ => pure []
        else pure []
      let more ← imagesLoop rest
      .ok (here ++ more)

/-- `_extract_images`: base64 image blocks of a content array, including
those nested in tool_result blocks. -/
def _extract_images (content : Val) : Except String (List Val) :=
  imagesLoop (_normalize_content content)

/-- `_track_file_activity`: record file/command/fetch activity from one
tool invocation's input (already guarded to a dict by the caller). -/
def _track_file_activity (tool_name : Val) (tool_input : List (String × Val))
    (m : Meta) : Except String Meta :=
  let fp := dgetD tool_input "file_path" (.str "")
  if isStrV tool_name "Read" && truthy fp then do
    let s ← pySetAdd m.files_read fp
    .ok { m with files_read := s }
  else if isStrV tool_name "Write" && truthy fp then do
    let s ← pySetAdd m.files_created fp
    .ok { m with files_created := s }
  else if isStrV tool_name "Edit" && truthy fp then do
    let s ← pySetAdd m.files_written fp
    .ok { m with files_written := s }
  else if isStrV tool_name "Bash" then
    let cmd := dgetD tool_input "command" (.str "")
    .ok (if truthy cmd then { m with bash_commands := m.bash_commands ++ [cmd] } else m)
  else if isStrV tool_name "WebFetch" || isStrV tool_name "WebSearch" then
    let u := dgetD tool_input "url" .null
    let uq := if truthy u then u else dgetD tool_input "query" (.str "")
    .ok (if truthy uq then { m with web_fetches := m.web_fetches ++ [uq] } else m)
  else .ok m

/-- The models-used update of `_process_assistant`
(`if model and model != "<synthetic>": metadata["models_used"].add(model)`). -/
def modelsStep (model : Val) (m : Meta) : Except String Meta :=
  if truthy model && !(isStrV model "<synthetic>") then do
    let s ← pySetAdd m.models_used model
    pure { m with models_used := s }
  else pure m

/-- The service-tier update of `_process_assistant`. -/
def tierStep (ud : List (String × Val)) (m : Meta) : Except String Meta :=
  if truthy (dgetD ud "service_tier" .null) then do
    let s ← pySetAdd m.service_tiers (dgetD ud "service_tier" .null)
    pure { m with service_tiers := s }
  else pure m

/-- The stop-reason histogram update of `_process_assistant`. -/
def stopStep (md : List (String × Val)) (m : Meta) : Except String Meta :=
  if truthy (dgetD md "stop_reason" (.str "")) then do
    let d ← pyIncr m.stop_reasons (dgetD md "stop_reason" (.str ""))
    pure { m with stop_reasons := d }
  else pure m

/-- `"\n\n".join(thinking_parts) if thinking_parts else None`. -/
def thinkingOf (parts : List Val) : Except String Val :=
  if parts.isEmpty then pure Val.null
  else do pure (Val.str (← pyJoin "\n\n" parts))

/-- The four token-total accumulations of `_process_assistant`
(`metadata[...] += usage.get(...) or 0`). -/
def tokenTotalsStep (ud : List (String × Val)) (m : Meta) : Except String Meta := do
  let a ← addTok (dgetD ud "input_tokens" .null)
  let b ← addTok (dgetD ud "output_tokens" .null)
  let c ← addTok (dgetD ud "cache_read_input_tokens" .null)
  let d ← addTok (dgetD ud "cache_creation_input_tokens" .null)
  .ok { m with
    total_input_tokens := m.total_input_tokens + a
    total_output_tokens := m.total_output_tokens + b
    total_cache_read_tokens := m.total_cache_read_tokens + c
    total_cache_creation_tokens := m.total_cache_creation_tokens + d }

/-- The extended cache metrics of `_process_assistant`
(`usage.get("cache_creation", {})`, accumulated only when a dict). -/
def ephemeralStep (ud : List (String × Val)) (m : Meta) : Except String Meta :=
  match dgetD ud "cache_creation" (.dict []) with
  | .dict cd => do
      let a ← addTok (dgetD cd "ephemeral_5m_input_tokens" .null)
      let b ← addTok (dgetD cd "ephemeral_1h_input_tokens" .null)
      .ok { m with
        total_ephemeral_5m_tokens := m.total_ephemeral_5m_tokens + a
        total_ephemeral_1h_tokens := m.total_ephemeral_1h_tokens + b }
  | _ => .ok m

/-- State of the content loop of `_process_assistant`. -/
structure CState where
  text_parts : List Val
  thinking_parts : List Val
  tool_uses : List Val
  meta : Meta

/-- One content block of `_process_assistant`: text and thinking collect
their payloads, a tool_use bumps the call total and per-tool histogram
and records file activity. -/
def contentStep (pd : List (String × Val)) (st : CState) : Except String CState :=
  let ptype := dgetD pd "type" .null
  if isStrV ptype "text" then
    .ok { st with text_parts := st.text_parts ++ [dgetD pd "text" (.str "")] }
  else if isStrV ptype "thinking" then
    .ok { st with thinking_parts := st.thinking_parts ++ [dgetD pd "thinking" (.str "")] }
  else if isStrV ptype "tool_use" then do
    let tool_name := dgetD pd "name" (.str "unknown")
    let tool_input := dgetD pd "input" (.dict [])
    let m := { st.meta with total_tool_calls := st.meta.total_tool_calls + 1 }
    let counts ← pyIncr m.tool_call_counts tool_name
    let m := { m with tool_call_counts := counts }
    let safe_input := match tool_input with
      | .dict di => di
      | _ => []
    let m ← _track_file_activity tool_name safe_input m
    .ok { st with
      tool_uses := st.tool_uses ++
        [.dict [("id", dgetD pd "id" .null), ("name", tool_name), ("input", tool_input)]]
      meta := m }
  else .ok st

/-- The content loop of `_process_assistant`. -/
def contentLoop : List (List (String × Val)) → CState → Except String CState
  | [], st => .ok st
  | p :: rest, st => do
      contentLoop rest (← contentStep p st)

/-- `_process_assistant`.  The `match`es on `entry`, `message` and
`usage` sit where the Python code first calls `.get` on each value and
raise the same `AttributeError` a non-dict would. -/
def _process_assistant (entry : Val) (messages : List Val) (m : Meta) :
    Except String (List Val × Meta) :=
  match entry with
  | .dict ed =>
    (match dgetD ed "message" (.dict []) with
     | .dict md => do
        let model := dgetD md "model" (.str "")
        let m ← modelsStep model m
        let m := if truthy (dgetD ed "isApiErrorMessage" .null) then
            { m with api_errors := m.api_errors + 1 }
          else m
        match dgetD md "usage" (.dict []) with
        | .dict ud => do
            let m ← tokenTotalsStep ud m
            let m ← ephemeralStep ud m
            let m ← tierStep ud m
            let m ← stopStep md m
            let cst ← contentLoop (_normalize_content (dgetD md "content" (.list [])))
              ⟨[], [], [], m⟩
            let text ← pyJoin "\n" cst.text_parts
            let thinking ← thinkingOf cst.thinking_parts
            .ok (messages ++ [.dict [
              ("role", .str "assistant"),
              ("uuid", dgetD ed "uuid" .null),
              ("parent_uuid", dgetD ed "parentUuid" .null),
              ("timestamp", dgetD ed "timestamp" .null),
              ("model", model),
              ("stop_reason", dgetD md "stop_reason" (.str "")),
              ("text", .str text),
              ("thinking", thinking),
              ("tool_uses", if cst.tool_uses.isEmpty then .null else .list cst.tool_uses),
              ("is_sidechain", dgetD ed "isSidechain" (.bool false)),
              ("is_api_error", dgetD ed "isApiErrorMessage" (.bool false)),
              ("usage", .dict [
                ("input_tokens", orZero (dgetD ud "input_tokens" .null)),
                ("output_tokens", orZero (dgetD ud "output_tokens" .null)),
                ("cache_read", orZero (dgetD ud "cache_read_input_tokens" .null)),
                ("cache_creation", orZero (dgetD ud "cache_creation_input_tokens" .null)),
                ("service_tier", dgetD ud "service_tier" .null)])]], cst.meta)
        | _ => .error "AttributeError: .get on a non-dict value"
     | _ => .error "AttributeError: .get on a non-dict value")
  | _ => .error "AttributeError: .get on a non-dict value"

/-- The extra image harvest of `_process_user` from a dict tool result
holding a content list (`images = (images or []) + tr_images`). -/
def trContentImages (tool_result : Val) (images : List Val) :
    Except String (List Val) :=
  match tool_result with
  | .dict td =>
      if dhas td "content" then
        match dgetD td "content" .null with
        | .list ns => do
            let tri ← _extract_images (.list ns)
            pure (if tri.isEmpty then images else images ++ tri)
        | _ => pure images
      else pure images
  | _ => pure images

/-- `_process_user`. -/
def _process_user (entry : Val) (messages : List Val) (m : Meta) :
    Except String (List Val × Meta) :=
  match entry with
  | .dict ed => do
    let m := match m.version with
      | .null => { m with version := dgetD ed "version" .null }
      | _ => m
    let m := match m.cwd with
      | .null => { m with cwd := dgetD ed "cwd" .null }
      | _ => m
    let m := match m.git_branch with
      | .null => { m with git_branch := dgetD ed "gitBranch" .null }
      | _ => m
    let m := match m.permission_mode with
      | .null => { m with permission_mode := dgetD ed "permissionMode" .null }
      | _ => m
    match dgetD ed "message" (.dict []) with
    | .dict md => do
        let content := dgetD md "content" (.list [])
        let text ← _extract_text content
        let images ← _extract_images content
        let tool_result := dgetD ed "toolUseResult" .null
        let trp ← _parse_tool_result tool_result (dgetD ed "slug" .null)
        let images ← trContentImages tool_result images
        .ok (messages ++ [.dict [
          ("role", .str "user"),
          ("uuid", dgetD ed "uuid" .null),
          ("parent_uuid", dgetD ed "parentUuid" .null),
          ("timestamp", dgetD ed "timestamp" .null),
          ("text", .str text),
          ("images", if images.isEmpty then .null else .list images),
          ("is_sidechain", dgetD ed "isSidechain" (.bool false)),
          ("tool_result", tool_result),
          ("tool_result_parsed", match trp with
            | some r => .dict r
            | none => .null),
          ("slug", dgetD ed "slug" .null)]], m)
    | _ => .error "AttributeError: .get on a non-dict value"
  | _ => .error "AttributeError: .get on a non-dict value"

/-- `_process_system`. -/
def _process_system (entry : Val) (messages : List Val) (m : Meta) :
    Except String (List Val × Meta) :=
  match entry with
  | .dict ed =>
    let subtype := dgetD ed "subtype" (.str "")
    let m := if isStrV subtype "compact_boundary" then
        let m := { m with compactions := m.compactions + 1 }
        match dgetD ed "compactMetadata" .null with
        | .dict cd =>
            { m with compact_boundaries := m.compact_boundaries ++
              [.dict [("timestamp", dgetD ed "timestamp" .null),
                ("trigger", dgetD cd "trigger" .null),
                ("pre_tokens", dgetD cd "preTokens" .null)]] }
        | _ => m
      else m
    .ok (messages ++ [.dict [
      ("role", .str "system"),
      ("uuid", dgetD ed "uuid" .null),
      ("parent_uuid", dgetD ed "parentUuid" .null),
      ("timestamp", dgetD ed "timestamp" .null),
      ("subtype", subtype),
      ("content", dgetD ed "content" (.str "")),
      ("is_sidechain", dgetD ed "isSidechain" (.bool false))]], m)
  | _ => .error "AttributeError: .get on a non-dict value"

/-- `_process_progress` (touches no metadata aggregate). -/
def _process_progress (entry : Val) (messages : List Val) :
    Except String (List Val) :=
  match entry with
  | .dict ed =>
    (match dgetD ed "data" (.dict []) with
     | .dict dd =>
        .ok (messages ++ [.dict [
          ("role", .str "progress"),
          ("uuid", dgetD ed "uuid" .null),
          ("parent_uuid", dgetD ed "parentUuid" .null),
          ("timestamp", dgetD ed "timestamp" .null),
          ("progress_type", dgetD dd "type" (.str "")),
          ("data", .dict dd),
          ("tool_use_id", dgetD ed "toolUseID" .null),
          ("parent_tool_use_id", dgetD ed "parentToolUseID" .null),
          ("is_sidechain", dgetD ed "isSidechain" (.bool false))]])
     | _ => .error "AttributeError: .get on a non-dict value")
  | _ => .error "AttributeError: .get on a non-dict value"

/-- The snapshot-timestamp fallback of the `parse_session` loop
(`file-history-snapshot` stores the timestamp inside `snapshot`). -/
def snapshotTs (entry : Val) (entry_type ts0 : Val) : Except String Val :=
  if !truthy ts0 && isStrV entry_type "file-history-snapshot" then do
    let snap ← pyGet entry "snapshot" .null
    match snap with
    | .dict sd => pure (dgetD sd "timestamp" .null)
    | _ => pure ts0
  else pure ts0

/-- The entry-type histogram update of the `parse_session` loop. -/
def entryCountStep (entry_type : Val) (m : Meta) : Except String Meta :=
  if truthy entry_type then do
    let ec ← pyIncr m.entry_counts entry_type
    pure { m with entry_counts := ec }
  else pure m

/-- Parser state: the message list and the metadata accumulator. -/
structure PState where
  messages : List Val
  metadata : Meta

/-- One decoded line of the `parse_session` loop: `entry.get("type")`
raises `AttributeError` on a decoded value that is not an object (the
only uncaught failure mode of the loop for well-decoded lines). -/
def parseStep (entry : Val) (st : PState) : Except String PState := do
  let entry_type ← pyGet entry "type" .null
  let ts0 ← pyGet entry "timestamp" .null
  let ts ← snapshotTs entry entry_type ts0
  let m := st.metadata
  let m := if truthy ts then
      { m with
        first_timestamp := (match m.first_timestamp with
          | .null => ts
          | f => f)
        last_timestamp := ts }
    else m
  let m ← entryCountStep entry_type m
  let sc ← pyGet entry "isSidechain" .null
  let m := if truthy sc then { m with sidechain_messages := m.sidechain_messages + 1 } else m
  if isStrV entry_type "user" then do
    let r ← _process_user entry st.messages m
    .ok ⟨r.1, r.2⟩
  else if isStrV entry_type "assistant" then do
    let r ← _process_assistant entry st.messages m
    .ok ⟨r.1, r.2⟩
  else if isStrV entry_type "system" then do
    let r ← _process_system entry st.messages m
    .ok ⟨r.1, r.2⟩
  else if isStrV entry_type "progress" then do
    let msgs ← _process_progress entry st.messages
    .ok ⟨msgs, m⟩
  else .ok ⟨st.messages, m⟩

/-- The line loop of `parse_session`.  A line is `none` when it is empty
or `json.loads` fails on it (both are skipped by `continue`), otherwise
`some` of its decoded value. -/
def parseLoop : List (Option Val) → PState → Except String PState
  | [], st => .ok st
  | none :: rest, st => parseLoop rest st
  | some e :: rest, st => do
      parseLoop rest (← parseStep e st)

/-- `parse_session` over the decoded lines of one file (see the module
comment and `Meta` for the finalization steps left out: none is
observable by the claims). -/
def parse_session (lines : List (Option Val)) : Except String PState :=
  parseLoop lines ⟨[], initMeta⟩

/-! ## Statistics Engine (src/utils/session_stats.py)

The statistics engine is, per §4.6 of the specification, a pure
function of a parsed Session, so it is embedded over the typed session
data model of §3: message roles are the four roles the parser emits,
an assistant message's model name is a string and its usage snapshot
holds the integers the parser stored, a tool invocation is an id, a
name and an input mapping, and a classified tool result is the dict
`_parse_tool_result` built.  (On a hand-crafted log whose fields are of
other types the Python statistics functions can raise, which none of
the statistics claims exercises.) -/

inductive Role where
  | user
  | assistant
  | system
  | progress
deriving DecidableEq

/-- One tool invocation as `_process_assistant` stores it
(`{"id": ..., "name": ..., "input": ...}`). -/
structure ToolUse where
  id : Val
  name : String
  input : List (String × Val)

/-- One parsed message, restricted to the fields the statistics engine
reads: `role`, `timestamp`, `model`, the two usage-snapshot token
counts, `tool_uses` (the empty list standing for Python's falsy
`None`), and `tool_result_parsed`. -/
structure SMsg where
  role : Role
  timestamp : Val := .null
  model : String := ""
  usage_input_tokens : Int := 0
  usage_output_tokens : Int := 0
  tool_uses : List ToolUse := []
  tool_result_parsed : Option (List (String × Val)) := none

/-- `_MODEL_PRICING`: substring-keyed (input, output) price per 1M
tokens, in the source's insertion order. -/
def _MODEL_PRICING : List (String × ℚ × ℚ) :=
  [("opus", 15, 75), ("sonnet", 3, 15), ("haiku", 1/4, 5/4)]

/-- `_get_pricing`: first pricing key contained in the lower-cased model
name (`for key, pricing in _MODEL_PRICING.items(): if key in model_lower`). -/
def _get_pricing (model : String) : Option (ℚ × ℚ) :=
  (_MODEL_PRICING.find? fun p => pyInStr p.1 (strLower model)).map (·.2)

/-- `round(x, 4)` of `_estimate_cost`, on exact rationals.  (Python
rounds ties to even on binary floats; `round` here rounds ties up.  No
claim's value sits on a tie, and none of the claimed properties depends
on the tie direction.) -/
def round4 (q : ℚ) : ℚ := (round (q * 10000) : ℚ) / 10000

/-- The message loop of `_estimate_cost`: `(total, has_data)`. -/
def estimateLoop : List SMsg → ℚ → Bool → ℚ × Bool
  | [], total, has_data => (total, has_data)
  | msg :: rest, total, has_data =>
      if msg.role ≠ .assistant then estimateLoop rest total has_data
      else if msg.usage_input_tokens = 0 ∧ msg.usage_output_tokens = 0 then
        estimateLoop rest total has_data
      else
        match _get_pricing msg.model with
        | some p =>
            estimateLoop rest
              (total + (msg.usage_input_tokens : ℚ) / 1000000 * p.1
                + (msg.usage_output_tokens : ℚ) / 1000000 * p.2) true
        | none => estimateLoop rest total has_data

/-- `_estimate_cost` (its second Python parameter, the metadata dict, is
never read by the body and is dropped here): `round(total, 4)` when some
message priced, absent otherwise. -/
def _estimate_cost (messages : List SMsg) : Option ℚ :=
  let fin := estimateLoop messages 0 false
  if fin.2 then some (round4 fin.1) else none

/-- `sorted(xs)` on strings. -/
def pySortedStr (xs : List String) : List String :=
  xs.mergeSort (· ≤ ·)

/-- The files-touched breakdown record. -/
structure FilesTouched where
  read : List String
  written : List String
  created : List String
  total_unique : Nat

/-- `_compute_files_touched` over the three file-activity sets of the
metadata (sets modelled as duplicate-free via `dedup`): the read bucket
is `read - written - created`, written and created are reported as-is,
plus the size of the union. -/
def _compute_files_touched (files_read files_written files_created : List String) :
    FilesTouched :=
  let read := files_read.dedup
  let written := files_written.dedup
  let created := files_created.dedup
  { read := pySortedStr (read.filter fun f => !written.contains f && !created.contains f)
    written := pySortedStr written
    created := pySortedStr created
    total_unique := (read ++ written ++ created).dedup.length }

/-- State of the `_compute_commands_run` loop: the pending dict
(insertion-ordered `tool_use_id → entry`) and the emitted command
entries. -/
structure CRState where
  pending : List (Val × List (String × Val))
  commands : List (List (String × Val))

/-- Store at the first (hence, in a dict, the only) matching key,
keeping its position; a new key is appended. -/
def storeFirst (pending : List (Val × List (String × Val))) (k : Val)
    (e : List (String × Val)) : List (Val × List (String × Val)) :=
  match pending with
  | [] => [(k, e)]
  | p :: rest =>
      if flatEq p.1 k then (p.1, e) :: rest else p :: storeFirst rest k e

/-- `pending_commands[key] = entry` with Python dict semantics: an
unhashable key raises `TypeError`, an existing key keeps its position
and is overwritten, a new key is appended. -/
def pendingInsert (pending : List (Val × List (String × Val))) (k : Val)
    (e : List (String × Val)) : Except String (List (Val × List (String × Val))) :=
  if hashableV k then .ok (storeFirst pending k e)
  else .error "TypeError: unhashable type"

/-- The inner loop of `_compute_commands_run` over one assistant
message's tool invocations: Bash invocations with a truthy command are
registered as pending, keyed by tool-use id. -/
def crTuLoop (ts : Val) : List ToolUse → List (Val × List (String × Val)) →
    Except String (List (Val × List (String × Val)))
  | [], pending => .ok pending
  | tu :: rest, pending => do
      let pending ← if tu.name = "Bash" then
          let cmd := dgetD tu.input "command" (.str "")
          if truthy cmd then
            pendingInsert pending tu.id [("command", cmd), ("timestamp", ts)]
          else pure pending
        else pure pending
      crTuLoop ts rest pending

/-- The outcome annotation `_compute_commands_run` writes onto a matched
command entry from a bash-classified result. -/
def annotateResult (e trp : List (String × Val)) : List (String × Val) :=
  dset (dset (dset (dset e
    "exit_code" (dgetD trp "exit_code" .null))
    "is_error" (dgetD trp "is_error" (.bool false)))
    "interrupted" (dgetD trp "interrupted" (.bool false)))
    "return_code_interpretation" (dgetD trp "return_code_interpretation" .null)

/-- Whether a message carries a truthy bash-classified parsed tool
result (`msg.get("tool_result_parsed")` truthy and of result_type
`bash`). -/
def isBashResult (msg : SMsg) : Bool :=
  match msg.tool_result_parsed with
  | some trp => !trp.isEmpty && isStrV (dgetD trp "result_type" .null) "bash"
  | none => false

/-- One message of the `_compute_commands_run` loop: an assistant
message registers its Bash invocations; a user message holding a
bash-classified result pops the first pending entry (`next(iter(...))`)
and emits it annotated — or does nothing when no invocation is pending. -/
def crStep (msg : SMsg) (st : CRState) : Except String CRState := do
  let st ← if msg.role = .assistant ∧ ¬ msg.tool_uses.isEmpty then do
      let p ← crTuLoop msg.timestamp msg.tool_uses st.pending
      pure { st with pending := p }
    else pure st
  if msg.role = .user ∧ isBashResult msg then
    let trp := (msg.tool_result_parsed).getD []
    match st.pending with
    | [] => .ok st
    | (_, e) :: rest =>
        .ok ⟨rest, st.commands ++ [annotateResult e trp]⟩
  else .ok st

/-- The message loop of `_compute_commands_run`. -/
def crLoop : List SMsg → CRState → Except String CRState
  | [], st => .ok st
  | msg :: rest, st => do
      crLoop rest (← crStep msg st)

/-- The trailing pass of `_compute_commands_run`: unmatched invocations
are emitted with absent (`None`) outcome fields. -/
def crFinish (st : CRState) : List (List (String × Val)) :=
  st.commands ++ st.pending.map fun p => dset (dset p.2 "exit_code" .null) "is_error" .null

/-- `_compute_commands_run`. -/
def _compute_commands_run (messages : List SMsg) :
    Except String (List (List (String × Val))) := do
  let st ← crLoop messages ⟨[], []⟩
  .ok (crFinish st)

/-! Modelled from the spec (§4.6, claim C9's wording): a pure FIFO
queue of pending bash invocations, with no keying by tool-use id — each
bash-classified result pops the earliest still-unmatched invocation. -/

/-- State of the spec-side FIFO pairing. -/
structure QState where
  queue : List (List (String × Val))
  commands : List (List (String × Val))

/-- Modelled from the spec: enqueue one assistant message's Bash
invocations in order. -/
def fifoEnq (ts : Val) : List ToolUse → List (List (String × Val)) →
    List (List (String × Val))
  | [], q => q
  | tu :: rest, q =>
      let q := if tu.name = "Bash" then
          let cmd := dgetD tu.input "command" (.str "")
          if truthy cmd then q ++ [[("command", cmd), ("timestamp", ts)]] else q
        else q
      fifoEnq ts rest q

/-- Modelled from the spec: one message of the FIFO pairing. -/
def fifoStep (msg : SMsg) (st : QState) : QState :=
  let st := if msg.role = .assistant ∧ ¬ msg.tool_uses.isEmpty then
      { st with queue := fifoEnq msg.timestamp msg.tool_uses st.queue }
    else st
  if msg.role = .user ∧ isBashResult msg then
    let trp := (msg.tool_result_parsed).getD []
    match st.queue with
    | [] => st
    | e :: rest => ⟨rest, st.commands ++ [annotateResult e trp]⟩
  else st

/-- Modelled from the spec: the FIFO pairing loop. -/
def fifoLoop : List SMsg → QState → QState
  | [], st => st
  | msg :: rest, st => fifoLoop rest (fifoStep msg st)

/-- Modelled from the spec: strict FIFO matching of bash invocations to
bash-classified results; unmatched invocations reported with absent
outcome fields. -/
def fifoCommandsSpec (messages : List SMsg) : List (List (String × Val)) :=
  let st := fifoLoop messages ⟨[], []⟩
  st.commands ++ st.queue.map fun e => dset (dset e "exit_code" .null) "is_error" .null

/-- The ids of the Bash invocations (with a truthy command) of one
tool-use list, in order. -/
def idsOfTu (tus : List ToolUse) : List Val :=
  tus.filterMap fun tu =>
    if tu.name = "Bash" ∧ truthy (dgetD tu.input "command" (.str "")) then
      some tu.id
    else none

/-- The ordered ids of the Bash invocations `_compute_commands_run`
registers over a message list. -/
def bashIds : List SMsg → List Val
  | [] => []
  | m :: rest =>
      (if m.role = .assistant ∧ ¬ m.tool_uses.isEmpty then idsOfTu m.tool_uses else [])
        ++ bashIds rest

/-! ## Concrete inputs used by witnesses and counterexamples -/

/-- One assistant message on a sonnet model with a million input and a
million output tokens (the spec's cost-estimator test vector). -/
def sonnetMsg : SMsg :=
  { role := .assistant, model := "claude-sonnet-4-5",
    usage_input_tokens := 1000000, usage_output_tokens := 1000000 }

/-- A Bash tool invocation with the given id and command. -/
def bashTU (id : Val) (cmd : String) : ToolUse :=
  ⟨id, "Bash", [("command", .str cmd)]⟩

/-- An assistant message carrying one Bash invocation. -/
def bashInvMsg (id : Val) (cmd : String) : SMsg :=
  ⟨.assistant, .null, "", 0, 0, [bashTU id cmd], none⟩

/-- A user message carrying a bash-classified tool result with the given
exit code. -/
def bashResMsg (exitCode : Val) : SMsg :=
  ⟨.user, .null, "", 0, 0, [],
    some [("slug", .null), ("result_type", .str "bash"),
      ("exit_code", exitCode), ("is_error", .bool false)]⟩

/-- Two Bash invocations sharing one tool-use id, then their two
results. -/
def dupIdMsgs : List SMsg :=
  [bashInvMsg (.str "x") "a", bashInvMsg (.str "x") "b",
    bashResMsg (.int 0), bashResMsg (.int 1)]

/-- Two Bash invocations with distinct tool-use ids, then their two
results (the claim's end-to-end scenario). -/
def twoBashMsgs : List SMsg :=
  [bashInvMsg (.str "id1") "a", bashInvMsg (.str "id2") "b",
    bashResMsg (.int 0), bashResMsg (.int 1)]

/-- Sum of the per-key counts of a counter dict. -/
def sumCounts (d : List (Val × Int)) : Int :=
  (d.map Prod.snd).sum

/-- The C7 invariant: the tool-call histogram sums to the call total. -/
def CountsInv (m : Meta) : Prop :=
  sumCounts m.tool_call_counts = m.total_tool_calls

/-- The metadata fields the token/model/tool-histogram claims observe,
all preserved by a step. -/
def StatFrame (m m' : Meta) : Prop :=
  m'.total_input_tokens = m.total_input_tokens ∧
  m'.total_output_tokens = m.total_output_tokens ∧
  m'.total_cache_read_tokens = m.total_cache_read_tokens ∧
  m'.total_cache_creation_tokens = m.total_cache_creation_tokens ∧
  m'.models_used = m.models_used ∧
  m'.total_tool_calls = m.total_tool_calls ∧
  m'.tool_call_counts = m.tool_call_counts

/-- An assistant entry whose model is the `<synthetic>` sentinel and
whose usage reports five input tokens. -/
def synthEntry : Val :=
  .dict [("type", .str "assistant"),
    ("message", .dict [("model", .str "<synthetic>"),
      ("usage", .dict [("input_tokens", .int 5)])])]

/-- An assistant entry shaped like the repository's regression test
`_assistant_entry`, with every usage token field explicitly null. -/
def nullUsageEntry : Val :=
  .dict [("type", .str "assistant"), ("uuid", .str "test-uuid"),
    ("parentUuid", .null), ("timestamp", .str "2026-01-01T00:00:00.000Z"),
    ("message", .dict [("model", .str "claude-sonnet-4-5"),
      ("content", .list [.dict [("type", .str "text"), ("text", .str "Hello")]]),
      ("stop_reason", .str "end_turn"),
      ("usage", .dict [("input_tokens", .null), ("output_tokens", .null),
        ("cache_read_input_tokens", .null),
        ("cache_creation_input_tokens", .null)])])]

/-- An assistant entry that invokes two tools (used to witness the
histogram invariant). -/
def twoToolsEntry : Val :=
  .dict [("type", .str "assistant"),
    ("message", .dict [("model", .str "claude-sonnet-4-5"),
      ("content", .list [
        .dict [("type", .str "tool_use"), ("id", .str "t1"), ("name", .str "Read"),
          ("input", .dict [("file_path", .str "/a.txt")])],
        .dict [("type", .str "tool_use"), ("id", .str "t2"), ("name", .str "Bash"),
          ("input", .dict [("command", .str "ls")])]]),
      ("usage", .dict [("input_tokens", .int 7), ("output_tokens", .int 3)])])]

/-! ## Shared lemmas -/

theorem ebind_ok_iff {α β : Type} {x : Except String α} {f : α → Except String β} {b : β} :
    x >>= f = .ok b ↔ ∃ a, x = .ok a ∧ f a = .ok b := by
  cases x <;> simp [Bind.bind, Except.bind]

theorem contains_true_iff (l : List String) (a : String) :
    l.contains a = true ↔ a ∈ l :=
  List.elem_iff

theorem pyLen_isOk (v : Val) : (pyLen v).isOk = sizedV v := by
  cases v <;> rfl

theorem dget?_here (k : String) (v : Val) (rest : List (String × Val)) :
    dget? ((k, v) :: rest) k = some v := by
  simp [dget?, List.find?]

theorem dget?_there (k k' : String) (v : Val) (rest : List (String × Val))
    (h : ¬ k = k') : dget? ((k, v) :: rest) k' = dget? rest k' := by
  simp [dget?, List.find?, h]

theorem kind_trBash (d : List (String × Val)) (slug : Val) :
    dget? (trBash d slug) "result_type" = some (.str "bash") := rfl

theorem kind_trFileEdit (d : List (String × Val)) (slug : Val) :
    dget? (trFileEdit d slug) "result_type" = some (.str "file_edit") := rfl

theorem kind_trFileWrite (d : List (String × Val)) (slug : Val) :
    dget? (trFileWrite d slug) "result_type" = some (.str "file_write") := rfl

theorem kind_trGlob (d : List (String × Val)) (slug : Val) :
    dget? (trGlob d slug) "result_type" = some (.str "glob") := rfl

theorem kind_trGrep (d : List (String × Val)) (slug : Val) :
    dget? (trGrep d slug) "result_type" = some (.str "grep") := rfl

theorem kind_trFileRead (d : List (String × Val)) (slug : Val) :
    dget? (trFileRead d slug) "result_type" = some (.str "file_read") := rfl

theorem kind_trWebSearch (d : List (String × Val)) (slug : Val) (n : Int) :
    dget? (trWebSearch d slug n) "result_type" = some (.str "web_search") := rfl

theorem kind_trWebFetch (d : List (String × Val)) (slug : Val) :
    dget? (trWebFetch d slug) "result_type" = some (.str "web_fetch") := rfl

theorem kind_trTask (d : List (String × Val)) (slug : Val) :
    dget? (trTask d slug) "result_type" = some (.str "task") := rfl

theorem kind_trTaskRetrieval (d : List (String × Val)) (slug : Val) :
    dget? (trTaskRetrieval d slug) "result_type" = some (.str "task") := rfl

theorem kind_trTaskAgent (d : List (String × Val)) (slug : Val) :
    dget? (trTaskAgent d slug) "result_type" = some (.str "task") := rfl

theorem kind_trTaskAsync (d : List (String × Val)) (slug : Val) :
    dget? (trTaskAsync d slug) "result_type" = some (.str "task") := rfl

theorem kind_trTodoWrite (d : List (String × Val)) (slug : Val) :
    dget? (trTodoWrite d slug) "result_type" = some (.str "todo_write") := rfl

theorem kind_trUserInput (d : List (String × Val)) (slug : Val) :
    dget? (trUserInput d slug) "result_type" = some (.str "user_input") := rfl

theorem kind_trPlan (d : List (String × Val)) (slug : Val) :
    dget? (trPlan d slug) "result_type" = some (.str "plan") := rfl

theorem kind_trUnknown (slug : Val) :
    dget? (trUnknown slug) "result_type" = some (.str "unknown") := rfl

theorem contains_false_iff (l : List String) (a : String) :
    l.contains a = false ↔ a ∉ l := by
  rw [← Bool.not_eq_true, not_iff_not]
  exact contains_true_iff l a

theorem term_matches_iff {v text : String} :
    _term_matches v text = true ↔ v ≠ "" ∧ pyInStr (strLower v) (strLower text) = true := by
  by_cases h : v = "" <;> simp [_term_matches, h]

theorem clauseFold_ne_nil :
    ∀ (tokens : List RToken) (acc : List (List String)) (cur : List String),
      (∀ c ∈ acc, c ≠ []) →
      ∀ c ∈ clausesOut (tokens.foldl clauseStep (acc, cur)), c ≠ [] := by
  intro tokens
  induction tokens with
  | nil =>
    intro acc cur h c hc
    simp only [List.foldl_nil, clausesOut] at hc
    split at hc
    · rcases List.mem_append.1 hc with h1 | h1
      · exact h c h1
      · rename_i hcur
        rw [List.mem_singleton.1 h1]
        exact hcur
    · exact h c hc
  | cons t rest ih =>
    intro acc cur h c hc
    simp only [List.foldl_cons] at hc
    cases t with
    | opOr =>
      have hc' : c ∈ clausesOut (rest.foldl clauseStep
          ((if cur ≠ [] then acc ++ [cur] else acc), ([] : List String))) := by
        simpa [clauseStep] using hc
      refine ih _ _ ?_ c hc'
      by_cases hcur : cur = []
      · rw [if_neg (by simp [hcur])]
        exact h
      · rw [if_pos hcur]
        intro c' hcmem
        rcases List.mem_append.1 hcmem with h1 | h1
        · exact h c' h1
        · rw [List.mem_singleton.1 h1]; exact hcur
    | opAnd => exact ih acc cur h c (by simpa [clauseStep] using hc)
    | word v =>
      refine ih acc (cur ++ [v]) h c (by simpa [clauseStep] using hc)
    | phrase v =>
      refine ih acc (cur ++ [v]) h c (by simpa [clauseStep] using hc)

theorem mem_splitClauses_ne_nil (tokens : List RToken) :
    ∀ c ∈ splitClauses tokens, c ≠ [] :=
  clauseFold_ne_nil tokens [] [] (by simp)

/-! ## Claim C5 — exclusion-rule evaluation -/

/-- C5 (corrected): a rule matches iff some OR-clause's terms all match,
where a term matches by case-insensitive substring containment — except
that a term with an empty value (an empty quoted phrase) never matches;
a rule list excludes iff some rule matches and the searchable text is
nonempty; an empty rule list or empty text never excludes. -/
theorem c5_rule_and_exclusion_semantics :
    (∀ (tokens : List RToken) (text : String),
      _rule_matches tokens text = true ↔
        ∃ clause ∈ splitClauses tokens, ∀ v ∈ clause,
          v ≠ "" ∧ pyInStr (strLower v) (strLower text) = true) ∧
    (∀ (rules : List (List RToken)) (text : String),
      is_excluded_by_rules rules text = true ↔
        text ≠ "" ∧ ∃ tokens ∈ rules, _rule_matches tokens text = true) ∧
    (∀ text : String, is_excluded_by_rules [] text = false) ∧
    (∀ rules : List (List RToken), is_excluded_by_rules rules "" = false) := by
  refine ⟨?_, ?_, ?_, ?_⟩
  · intro tokens text
    by_cases ht : tokens = []
    · subst ht
      simp [_rule_matches, splitClauses, clausesOut]
    · rw [_rule_matches, if_neg (by simpa [List.isEmpty_iff] using ht)]
      simp only [List.any_eq_true, Bool.and_eq_true, List.all_eq_true,
        term_matches_iff, decide_eq_true_eq]
      constructor
      · rintro ⟨c, hc, -, hall⟩
        exact ⟨c, hc, hall⟩
      · rintro ⟨c, hc, hall⟩
        exact ⟨c, hc, mem_splitClauses_ne_nil _ c hc, hall⟩
  · intro rules text
    by_cases h : text = ""
    · simp [is_excluded_by_rules, h]
    · by_cases hr : rules = []
      · simp [is_excluded_by_rules, h, hr]
      · rw [is_excluded_by_rules,
          if_neg (by simp [h, List.isEmpty_iff, hr])]
        simp [List.any_eq_true, h]
  · intro text
    simp [is_excluded_by_rules]
  · intro rules
    simp [is_excluded_by_rules]

/-- C5 counterexample: the rule consisting of the single empty quoted
phrase.  Under the claim's reading (every term is a pure substring test)
it matches any text, so the engine should exclude `"x"`; the code's
`_term_matches` rejects empty values, so it does not. -/
theorem c5_counterexample_empty_phrase :
    is_excluded_by_rules [[RToken.phrase ""]] "x" = false ∧
    specExcluded [[RToken.phrase ""]] "x" = true := by
  constructor <;> rfl

theorem pyLen_error (v : Val) (e : String) (h : pyLen v = .error e) :
    e = "TypeError: object has no len()" := by
  cases v <;> simp_all [pyLen]

/-- Complete case analysis of the classifier on a dict input: it raises
exactly on a web-search-matched dict whose `results` value is unsized,
and otherwise returns a record whose kind is the one the spec's ordered
tests select. -/
theorem parse_tr_master (d : List (String × Val)) (slug : Val) :
    ((specKindOfResult d = "web_search" ∧ sizedV (dgetD d "results" (.list [])) = false) →
      _parse_tool_result (.dict d) slug = .error "TypeError: object has no len()") ∧
    (¬(specKindOfResult d = "web_search" ∧ sizedV (dgetD d "results" (.list [])) = false) →
      ∃ r, _parse_tool_result (.dict d) slug = .ok (some r) ∧
        dget? r "result_type" = some (.str (specKindOfResult d))) := by
  simp only [_parse_tool_result]
  by_cases h1 : (dhas d "stdout" || dhas d "stderr") = true
  · rw [if_pos h1]
    have hk : specKindOfResult d = "bash" := by rw [specKindOfResult, if_pos h1]
    rw [hk]
    exact ⟨fun hw => absurd hw.1 (by decide),
      fun _ => ⟨trBash d slug, rfl, kind_trBash d slug⟩⟩
  · rw [if_neg h1]
    by_cases h2 : (dhas d "structuredPatch" || (dhas d "filePath" && dhas d "newString")) = true
    · rw [if_pos h2]
      have hk : specKindOfResult d = "file_edit" := by
        rw [specKindOfResult, if_neg h1, if_pos h2]
      rw [hk]
      exact ⟨fun hw => absurd hw.1 (by decide),
        fun _ => ⟨trFileEdit d slug, rfl, kind_trFileEdit d slug⟩⟩
    · rw [if_neg h2]
      by_cases h3 : (dhas d "filePath" && dhas d "content") = true
      · rw [if_pos h3]
        have hk : specKindOfResult d = "file_write" := by
          rw [specKindOfResult, if_neg h1, if_neg h2, if_pos h3]
        rw [hk]
        exact ⟨fun hw => absurd hw.1 (by decide),
          fun _ => ⟨trFileWrite d slug, rfl, kind_trFileWrite d slug⟩⟩
      · rw [if_neg h3]
        by_cases h4 : hasListAt d "filenames" = true
        · rw [if_pos h4]
          have hk : specKindOfResult d = "glob" := by
            rw [specKindOfResult, if_neg h1, if_neg h2, if_neg h3, if_pos h4]
          rw [hk]
          exact ⟨fun hw => absurd hw.1 (by decide),
            fun _ => ⟨trGlob d slug, rfl, kind_trGlob d slug⟩⟩
        · rw [if_neg h4]
          by_cases h5 : (dhas d "mode" && dhas d "numFiles") = true
          · rw [if_pos h5]
            have hk : specKindOfResult d = "grep" := by
              rw [specKindOfResult, if_neg h1, if_neg h2, if_neg h3, if_neg h4, if_pos h5]
            rw [hk]
            exact ⟨fun hw => absurd hw.1 (by decide),
              fun _ => ⟨trGrep d slug, rfl, kind_trGrep d slug⟩⟩
          · rw [if_neg h5]
            by_cases h6 : hasDictAt d "file" = true
            · rw [if_pos h6]
              have hk : specKindOfResult d = "file_read" := by
                rw [specKindOfResult, if_neg h1, if_neg h2, if_neg h3, if_neg h4,
                  if_neg h5, if_pos h6]
              rw [hk]
              exact ⟨fun hw => absurd hw.1 (by decide),
                fun _ => ⟨trFileRead d slug, rfl, kind_trFileRead d slug⟩⟩
            · rw [if_neg h6]
              by_cases h7 : (dhas d "query" && dhas d "results") = true
              · rw [if_pos h7]
                have hk : specKindOfResult d = "web_search" := by
                  rw [specKindOfResult, if_neg h1, if_neg h2, if_neg h3, if_neg h4,
                    if_neg h5, if_neg h6, if_pos h7]
                rw [hk]
                cases hl : pyLen (dgetD d "results" (.list [])) with
                | error e =>
                    have hs : sizedV (dgetD d "results" (.list [])) = false := by
                      rw [← pyLen_isOk, hl]; rfl
                    have he := pyLen_error _ _ hl
                    subst he
                    refine ⟨fun _ => by simp [Bind.bind, Except.bind, hl], fun hcon => ?_⟩
                    exact absurd ⟨rfl, hs⟩ hcon
                | ok n =>
                    have hs : sizedV (dgetD d "results" (.list [])) = true := by
                      rw [← pyLen_isOk, hl]; rfl
                    refine ⟨fun hw => ?_, fun _ => ?_⟩
                    · rw [hs] at hw; exact absurd hw.2 (by decide)
                    · exact ⟨trWebSearch d slug n,
                        by simp [Bind.bind, Except.bind, hl], kind_trWebSearch d slug n⟩
              · rw [if_neg h7]
                by_cases h8 : (dhas d "url" && dhas d "code") = true
                · rw [if_pos h8]
                  have hk : specKindOfResult d = "web_fetch" := by
                    rw [specKindOfResult, if_neg h1, if_neg h2, if_neg h3, if_neg h4,
                      if_neg h5, if_neg h6, if_neg h7, if_pos h8]
                  rw [hk]
                  exact ⟨fun hw => absurd hw.1 (by decide),
                    fun _ => ⟨trWebFetch d slug, rfl, kind_trWebFetch d slug⟩⟩
                · rw [if_neg h8]
                  by_cases h9 : (dhas d "task_id" || dhas d "message") = true
                  · rw [if_pos h9]
                    have hk : specKindOfResult d = "task" := by
                      rw [specKindOfResult, if_neg h1, if_neg h2, if_neg h3, if_neg h4,
                        if_neg h5, if_neg h6, if_neg h7, if_neg h8, if_pos (by simp [h9])]
                    rw [hk]
                    exact ⟨fun hw => absurd hw.1 (by decide),
                      fun _ => ⟨trTask d slug, rfl, kind_trTask d slug⟩⟩
                  · rw [if_neg h9]
                    by_cases h10 : (dhas d "retrieval_status" && dhas d "task") = true
                    · rw [if_pos h10]
                      have hk : specKindOfResult d = "task" := by
                        rw [specKindOfResult, if_neg h1, if_neg h2, if_neg h3, if_neg h4,
                          if_neg h5, if_neg h6, if_neg h7, if_neg h8, if_pos (by simp [h10])]
                      rw [hk]
                      exact ⟨fun hw => absurd hw.1 (by decide),
                        fun _ => ⟨trTaskRetrieval d slug, rfl, kind_trTaskRetrieval d slug⟩⟩
                    · rw [if_neg h10]
                      by_cases h11 : (dhas d "agentId" && dhas d "totalDurationMs") = true
                      · rw [if_pos h11]
                        have hk : specKindOfResult d = "task" := by
                          rw [specKindOfResult, if_neg h1, if_neg h2, if_neg h3, if_neg h4,
                            if_neg h5, if_neg h6, if_neg h7, if_neg h8,
                            if_pos (by simp [h11])]
                        rw [hk]
                        exact ⟨fun hw => absurd hw.1 (by decide),
                          fun _ => ⟨trTaskAgent d slug, rfl, kind_trTaskAgent d slug⟩⟩
                      · rw [if_neg h11]
                        by_cases h12 : (dhas d "agentId" && dhas d "isAsync") = true
                        · rw [if_pos h12]
                          have hk : specKindOfResult d = "task" := by
                            rw [specKindOfResult, if_neg h1, if_neg h2, if_neg h3, if_neg h4,
                              if_neg h5, if_neg h6, if_neg h7, if_neg h8,
                              if_pos (by simp [h12])]
                          rw [hk]
                          exact ⟨fun hw => absurd hw.1 (by decide),
                            fun _ => ⟨trTaskAsync d slug, rfl, kind_trTaskAsync d slug⟩⟩
                        · rw [if_neg h12]
                          by_cases h13 : (dhas d "newTodos" || dhas d "oldTodos") = true
                          · rw [if_pos h13]
                            have hk : specKindOfResult d = "todo_write" := by
                              rw [specKindOfResult, if_neg h1, if_neg h2, if_neg h3,
                                if_neg h4, if_neg h5, if_neg h6, if_neg h7, if_neg h8,
                                if_neg (by simp [h9, h10, h11, h12]), if_pos h13]
                            rw [hk]
                            exact ⟨fun hw => absurd hw.1 (by decide),
                              fun _ => ⟨trTodoWrite d slug, rfl, kind_trTodoWrite d slug⟩⟩
                          · rw [if_neg h13]
                            by_cases h14 : (dhas d "questions" && dhas d "answers") = true
                            · rw [if_pos h14]
                              have hk : specKindOfResult d = "user_input" := by
                                rw [specKindOfResult, if_neg h1, if_neg h2, if_neg h3,
                                  if_neg h4, if_neg h5, if_neg h6, if_neg h7, if_neg h8,
                                  if_neg (by simp [h9, h10, h11, h12]), if_neg h13,
                                  if_pos h14]
                              rw [hk]
                              exact ⟨fun hw => absurd hw.1 (by decide),
                                fun _ => ⟨trUserInput d slug, rfl, kind_trUserInput d slug⟩⟩
                            · rw [if_neg h14]
                              by_cases h15 : (dhas d "plan" && dhas d "filePath") = true
                              · rw [if_pos h15]
                                have hk : specKindOfResult d = "plan" := by
                                  rw [specKindOfResult, if_neg h1, if_neg h2, if_neg h3,
                                    if_neg h4, if_neg h5, if_neg h6, if_neg h7, if_neg h8,
                                    if_neg (by simp [h9, h10, h11, h12]), if_neg h13,
                                    if_neg h14, if_pos h15]
                                rw [hk]
                                exact ⟨fun hw => absurd hw.1 (by decide),
                                  fun _ => ⟨trPlan d slug, rfl, kind_trPlan d slug⟩⟩
                              · rw [if_neg h15]
                                have hk : specKindOfResult d = "unknown" := by
                                  rw [specKindOfResult, if_neg h1, if_neg h2, if_neg h3,
                                    if_neg h4, if_neg h5, if_neg h6, if_neg h7, if_neg h8,
                                    if_neg (by simp [h9, h10, h11, h12]), if_neg h13,
                                    if_neg h14, if_neg h15]
                                rw [hk]
                                exact ⟨fun hw => absurd hw.1 (by decide),
                                  fun _ => ⟨trUnknown slug, rfl, kind_trUnknown slug⟩⟩

theorem statFrame_refl (m : Meta) : StatFrame m m :=
  ⟨rfl, rfl, rfl, rfl, rfl, rfl, rfl⟩

theorem statFrame_trans {a b c : Meta} (h1 : StatFrame a b) (h2 : StatFrame b c) :
    StatFrame a c := by
  obtain ⟨x1, x2, x3, x4, x5, x6, x7⟩ := h1
  obtain ⟨y1, y2, y3, y4, y5, y6, y7⟩ := h2
  exact ⟨y1.trans x1, y2.trans x2, y3.trans x3, y4.trans x4, y5.trans x5,
    y6.trans x6, y7.trans x7⟩

theorem incrFirst_sum (d : List (Val × Int)) (k : Val) :
    sumCounts (incrFirst d k) = sumCounts d + 1 := by
  induction d with
  | nil => simp [incrFirst, sumCounts]
  | cons p rest ih =>
    rw [incrFirst]
    split
    · simp only [sumCounts, List.map_cons, List.sum_cons] at *
      omega
    · simp only [sumCounts, List.map_cons, List.sum_cons] at *
      omega

theorem pyIncr_sum (d : List (Val × Int)) (k : Val) (d' : List (Val × Int))
    (h : pyIncr d k = .ok d') : sumCounts d' = sumCounts d + 1 := by
  rw [pyIncr] at h
  split_ifs at h
  simp only [Except.ok.injEq] at h
  subst h
  exact incrFirst_sum d k

theorem track_frame (tn : Val) (inp : List (String × Val)) (m m' : Meta)
    (h : _track_file_activity tn inp m = .ok m') : StatFrame m m' := by
  rw [_track_file_activity] at h
  split_ifs at h <;>
  first
    | (rcases ebind_ok_iff.1 h with ⟨s, -, h2⟩
       simp only [Except.ok.injEq] at h2
       subst h2
       simp [StatFrame])
    | (simp only [Except.ok.injEq] at h
       subst h
       simp [StatFrame, apply_ite])

theorem ephemeral_frame (ud : List (String × Val)) (m m' : Meta)
    (h : ephemeralStep ud m = .ok m') : StatFrame m m' := by
  rw [ephemeralStep] at h
  cases hcc : dgetD ud "cache_creation" (.dict []) <;> simp only [hcc] at h <;>
  first
    | (simp only [Except.ok.injEq] at h
       subst h
       exact statFrame_refl m)
    | (rcases ebind_ok_iff.1 h with ⟨a, -, h⟩
       rcases ebind_ok_iff.1 h with ⟨b, -, h⟩
       simp only [Except.ok.injEq] at h
       subst h
       simp [StatFrame])

theorem tokenTotalsStep_spec (ud : List (String × Val)) (m m' : Meta)
    (h : tokenTotalsStep ud m = .ok m') :
    ∃ a b c e,
      addTok (dgetD ud "input_tokens" .null) = .ok a ∧
      addTok (dgetD ud "output_tokens" .null) = .ok b ∧
      addTok (dgetD ud "cache_read_input_tokens" .null) = .ok c ∧
      addTok (dgetD ud "cache_creation_input_tokens" .null) = .ok e ∧
      m'.total_input_tokens = m.total_input_tokens + a ∧
      m'.total_output_tokens = m.total_output_tokens + b ∧
      m'.total_cache_read_tokens = m.total_cache_read_tokens + c ∧
      m'.total_cache_creation_tokens = m.total_cache_creation_tokens + e ∧
      m'.models_used = m.models_used ∧
      m'.total_tool_calls = m.total_tool_calls ∧
      m'.tool_call_counts = m.tool_call_counts := by
  rw [tokenTotalsStep] at h
  rcases ebind_ok_iff.1 h with ⟨a, ha, h⟩
  rcases ebind_ok_iff.1 h with ⟨b, hb, h⟩
  rcases ebind_ok_iff.1 h with ⟨c, hc, h⟩
  rcases ebind_ok_iff.1 h with ⟨e, he, h⟩
  simp only [Except.ok.injEq] at h
  subst h
  exact ⟨a, b, c, e, ha, hb, hc, he, rfl, rfl, rfl, rfl, rfl, rfl, rfl⟩

theorem contentStep_spec (pd : List (String × Val)) (st st' : CState)
    (h : contentStep pd st = .ok st') :
    (st'.meta.total_input_tokens = st.meta.total_input_tokens ∧
     st'.meta.total_output_tokens = st.meta.total_output_tokens ∧
     st'.meta.total_cache_read_tokens = st.meta.total_cache_read_tokens ∧
     st'.meta.total_cache_creation_tokens = st.meta.total_cache_creation_tokens ∧
     st'.meta.models_used = st.meta.models_used) ∧
    (CountsInv st.meta → CountsInv st'.meta) := by
  rw [contentStep] at h
  split_ifs at h
  · simp only [Except.ok.injEq] at h
    subst h
    exact ⟨⟨rfl, rfl, rfl, rfl, rfl⟩, fun hi => hi⟩
  · simp only [Except.ok.injEq] at h
    subst h
    exact ⟨⟨rfl, rfl, rfl, rfl, rfl⟩, fun hi => hi⟩
  · rcases ebind_ok_iff.1 h with ⟨counts, hcnt, h⟩
    rcases ebind_ok_iff.1 h with ⟨m2, htr, h⟩
    simp only [Except.ok.injEq] at h
    subst h
    obtain ⟨f1, f2, f3, f4, f5, f6, f7⟩ := track_frame _ _ _ _ htr
    constructor
    · exact ⟨by simp [f1], by simp [f2], by simp [f3], by simp [f4], by simp [f5]⟩
    · intro hi
      rw [CountsInv] at hi ⊢
      simp only [f6, f7]
      rw [pyIncr_sum _ _ _ hcnt]
      simp [hi]
  · simp only [Except.ok.injEq] at h
    subst h
    exact ⟨⟨rfl, rfl, rfl, rfl, rfl⟩, fun hi => hi⟩

theorem contentLoop_spec :
    ∀ (ps : List (List (String × Val))) (st st' : CState),
      contentLoop ps st = .ok st' →
      (st'.meta.total_input_tokens = st.meta.total_input_tokens ∧
       st'.meta.total_output_tokens = st.meta.total_output_tokens ∧
       st'.meta.total_cache_read_tokens = st.meta.total_cache_read_tokens ∧
       st'.meta.total_cache_creation_tokens = st.meta.total_cache_creation_tokens ∧
       st'.meta.models_used = st.meta.models_used) ∧
      (CountsInv st.meta → CountsInv st'.meta) := by
  intro ps
  induction ps with
  | nil =>
    intro st st' h
    simp only [contentLoop, Except.ok.injEq] at h
    subst h
    exact ⟨⟨rfl, rfl, rfl, rfl, rfl⟩, fun hi => hi⟩
  | cons p rest ih =>
    intro st st' h
    rw [contentLoop] at h
    rcases ebind_ok_iff.1 h with ⟨st1, hstep, h⟩
    obtain ⟨⟨a1, a2, a3, a4, a5⟩, ainv⟩ := contentStep_spec p st st1 hstep
    obtain ⟨⟨b1, b2, b3, b4, b5⟩, binv⟩ := ih st1 st' h
    exact ⟨⟨b1.trans a1, b2.trans a2, b3.trans a3, b4.trans a4, b5.trans a5⟩,
      fun hi => binv (ainv hi)⟩

set_option maxHeartbeats 1000000 in
/-- Complete account of `_process_assistant`'s metadata effects on the
fields the claims observe: the four token totals each grow by their
`usage.get(...) or 0` value, unconditionally in the model name; the
model-name set is untouched when the models-used guard is false; and
the histogram invariant is preserved. -/
theorem processAssistant_spec (ed md ud : List (String × Val)) (msgs : List Val)
    (m : Meta) (r : List Val × Meta)
    (h1 : dgetD ed "message" (.dict []) = .dict md)
    (h2 : dgetD md "usage" (.dict []) = .dict ud)
    (h3 : _process_assistant (.dict ed) msgs m = .ok r) :
    ∃ a b c e,
      addTok (dgetD ud "input_tokens" .null) = .ok a ∧
      addTok (dgetD ud "output_tokens" .null) = .ok b ∧
      addTok (dgetD ud "cache_read_input_tokens" .null) = .ok c ∧
      addTok (dgetD ud "cache_creation_input_tokens" .null) = .ok e ∧
      r.2.total_input_tokens = m.total_input_tokens + a ∧
      r.2.total_output_tokens = m.total_output_tokens + b ∧
      r.2.total_cache_read_tokens = m.total_cache_read_tokens + c ∧
      r.2.total_cache_creation_tokens = m.total_cache_creation_tokens + e ∧
      ((truthy (dgetD md "model" (.str "")) &&
          !(isStrV (dgetD md "model" (.str "")) "<synthetic>")) = false →
        r.2.models_used = m.models_used) ∧
      (CountsInv m → CountsInv r.2) := by
  simp only [_process_assistant, h1, h2] at h3
  rcases ebind_ok_iff.1 h3 with ⟨m1, hm1, h3⟩
  have hm1spec :
      (m1.total_input_tokens = m.total_input_tokens ∧
       m1.total_output_tokens = m.total_output_tokens ∧
       m1.total_cache_read_tokens = m.total_cache_read_tokens ∧
       m1.total_cache_creation_tokens = m.total_cache_creation_tokens ∧
       m1.total_tool_calls = m.total_tool_calls ∧
       m1.tool_call_counts = m.tool_call_counts) ∧
      ((truthy (dgetD md "model" (.str "")) &&
          !(isStrV (dgetD md "model" (.str "")) "<synthetic>")) = false →
        m1.models_used = m.models_used) := by
    rw [modelsStep] at hm1
    by_cases hc : (truthy (dgetD md "model" (.str "")) &&
        !(isStrV (dgetD md "model" (.str "")) "<synthetic>")) = true
    · rw [if_pos hc] at hm1
      rcases ebind_ok_iff.1 hm1 with ⟨s, -, hm1⟩
      simp only [pure, Except.pure, Except.ok.injEq] at hm1
      subst hm1
      refine ⟨⟨rfl, rfl, rfl, rfl, rfl, rfl⟩, fun hfalse => ?_⟩
      rw [hc] at hfalse
      cases hfalse
    · rw [if_neg hc] at hm1
      simp only [pure, Except.pure, Except.ok.injEq] at hm1
      subst hm1
      exact ⟨⟨rfl, rfl, rfl, rfl, rfl, rfl⟩, fun _ => rfl⟩
  rcases ebind_ok_iff.1 h3 with ⟨m3, htt, h3⟩
  have hm2spec :
      ∀ mm : Meta,
        (if truthy (dgetD ed "isApiErrorMessage" .null) then
          { mm with api_errors := mm.api_errors + 1 } else mm).total_input_tokens
            = mm.total_input_tokens ∧
        (if truthy (dgetD ed "isApiErrorMessage" .null) then
          { mm with api_errors := mm.api_errors + 1 } else mm).total_output_tokens
            = mm.total_output_tokens ∧
        (if truthy (dgetD ed "isApiErrorMessage" .null) then
          { mm with api_errors := mm.api_errors + 1 } else mm).total_cache_read_tokens
            = mm.total_cache_read_tokens ∧
        (if truthy (dgetD ed "isApiErrorMessage" .null) then
          { mm with api_errors := mm.api_errors + 1 } else mm).total_cache_creation_tokens
            = mm.total_cache_creation_tokens ∧
        (if truthy (dgetD ed "isApiErrorMessage" .null) then
          { mm with api_errors := mm.api_errors + 1 } else mm).models_used
            = mm.models_used ∧
        (if truthy (dgetD ed "isApiErrorMessage" .null) then
          { mm with api_errors := mm.api_errors + 1 } else mm).total_tool_calls
            = mm.total_tool_calls ∧
        (if truthy (dgetD ed "isApiErrorMessage" .null) then
          { mm with api_errors := mm.api_errors + 1 } else mm).tool_call_counts
            = mm.tool_call_counts := by
    intro mm
    split <;> simp
  obtain ⟨a, b, c, e, ha, hb, hc', he, t1, t2, t3, t4, t5, t6, t7⟩ :=
    tokenTotalsStep_spec ud _ m3 htt
  rcases ebind_ok_iff.1 h3 with ⟨m4, heph, h3⟩
  obtain ⟨e1, e2, e3, e4, e5, e6, e7⟩ := ephemeral_frame ud m3 m4 heph
  rcases ebind_ok_iff.1 h3 with ⟨m5, htier, h3⟩
  have htierspec :
      m5.total_input_tokens = m4.total_input_tokens ∧
      m5.total_output_tokens = m4.total_output_tokens ∧
      m5.total_cache_read_tokens = m4.total_cache_read_tokens ∧
      m5.total_cache_creation_tokens = m4.total_cache_creation_tokens ∧
      m5.models_used = m4.models_used ∧
      m5.total_tool_calls = m4.total_tool_calls ∧
      m5.tool_call_counts = m4.tool_call_counts := by
    rw [tierStep] at htier
    by_cases hc2 : truthy (dgetD ud "service_tier" .null) = true
    · rw [if_pos hc2] at htier
      rcases ebind_ok_iff.1 htier with ⟨s, -, htier⟩
      simp only [pure, Except.pure, Except.ok.injEq] at htier
      subst htier
      exact ⟨rfl, rfl, rfl, rfl, rfl, rfl, rfl⟩
    · rw [if_neg hc2] at htier
      simp only [pure, Except.pure, Except.ok.injEq] at htier
      subst htier
      exact ⟨rfl, rfl, rfl, rfl, rfl, rfl, rfl⟩
  rcases ebind_ok_iff.1 h3 with ⟨m6, hstop, h3⟩
  have hstopspec :
      m6.total_input_tokens = m5.total_input_tokens ∧
      m6.total_output_tokens = m5.total_output_tokens ∧
      m6.total_cache_read_tokens = m5.total_cache_read_tokens ∧
      m6.total_cache_creation_tokens = m5.total_cache_creation_tokens ∧
      m6.models_used = m5.models_used ∧
      m6.total_tool_calls = m5.total_tool_calls ∧
      m6.tool_call_counts = m5.tool_call_counts := by
    rw [stopStep] at hstop
    by_cases hc2 : truthy (dgetD md "stop_reason" (.str "")) = true
    · rw [if_pos hc2] at hstop
      rcases ebind_ok_iff.1 hstop with ⟨s, -, hstop⟩
      simp only [pure, Except.pure, Except.ok.injEq] at hstop
      subst hstop
      exact ⟨rfl, rfl, rfl, rfl, rfl, rfl, rfl⟩
    · rw [if_neg hc2] at hstop
      simp only [pure, Except.pure, Except.ok.injEq] at hstop
      subst hstop
      exact ⟨rfl, rfl, rfl, rfl, rfl, rfl, rfl⟩
  rcases ebind_ok_iff.1 h3 with ⟨cst, hcl, h3⟩
  obtain ⟨⟨g1, g2, g3, g4, g5⟩, ginv⟩ := contentLoop_spec _ _ _ hcl
  rcases ebind_ok_iff.1 h3 with ⟨text, -, h3⟩
  rcases ebind_ok_iff.1 h3 with ⟨think, -, h3⟩
  simp only [Except.ok.injEq] at h3
  have hr2 : r.2 = cst.meta := by rw [← h3]
  obtain ⟨⟨p1, p2, p3, p4, p6, p7⟩, pmod⟩ := hm1spec
  obtain ⟨q1, q2, q3, q4, q5, q6, q7⟩ := hm2spec m1
  obtain ⟨ti1, ti2, ti3, ti4, ti5, ti6, ti7⟩ := htierspec
  obtain ⟨s1, s2, s3, s4, s5, s6, s7⟩ := hstopspec
  have g1' : cst.meta.total_input_tokens = m6.total_input_tokens := by simpa using g1
  have g2' : cst.meta.total_output_tokens = m6.total_output_tokens := by simpa using g2
  have g3' : cst.meta.total_cache_read_tokens = m6.total_cache_read_tokens := by
    simpa using g3
  have g4' : cst.meta.total_cache_creation_tokens = m6.total_cache_creation_tokens := by
    simpa using g4
  have g5' : cst.meta.models_used = m6.models_used := by simpa using g5
  refine ⟨a, b, c, e, ha, hb, hc', he, ?_, ?_, ?_, ?_, ?_, ?_⟩
  · rw [hr2, g1', s1, ti1, e1, t1, q1, p1]
  · rw [hr2, g2', s2, ti2, e2, t2, q2, p2]
  · rw [hr2, g3', s3, ti3, e3, t3, q3, p3]
  · rw [hr2, g4', s4, ti4, e4, t4, q4, p4]
  · intro hfalse
    rw [hr2, g5', s5, ti5, e5, t5, q5, pmod hfalse]
  · intro hi
    rw [hr2]
    refine ginv ?_
    show CountsInv m6
    rw [CountsInv] at hi ⊢
    rw [s6, s7, ti6, ti7, e6, e7, t6, t7, q6, q7, p6, p7]
    exact hi

theorem processUser_frame (entry : Val) (msgs : List Val) (m : Meta)
    (r : List Val × Meta) (h : _process_user entry msgs m = .ok r) :
    StatFrame m r.2 := by
  obtain ⟨r1, r2⟩ := r
  cases entry <;> simp only [_process_user] at h
  case dict ed =>
    cases hmsg : dgetD ed "message" (.dict []) <;> simp only [hmsg] at h
    case dict md =>
      rcases ebind_ok_iff.1 h with ⟨text, -, h⟩
      rcases ebind_ok_iff.1 h with ⟨imgs, -, h⟩
      rcases ebind_ok_iff.1 h with ⟨trp, -, h⟩
      rcases ebind_ok_iff.1 h with ⟨imgs2, -, h⟩
      simp only [Except.ok.injEq, Prod.mk.injEq] at h
      obtain ⟨-, hmeta⟩ := h
      subst hmeta
      repeat' split
      all_goals simp [StatFrame]
    all_goals simp at h
  all_goals simp at h

theorem processSystem_frame (entry : Val) (msgs : List Val) (m : Meta)
    (r : List Val × Meta) (h : _process_system entry msgs m = .ok r) :
    StatFrame m r.2 := by
  obtain ⟨r1, r2⟩ := r
  cases entry <;> simp only [_process_system] at h
  case dict ed =>
    simp only [Except.ok.injEq, Prod.mk.injEq] at h
    obtain ⟨-, hmeta⟩ := h
    subst hmeta
    repeat' split
    all_goals simp [StatFrame]
  all_goals simp at h

theorem entryCount_frame (et : Val) (m m' : Meta)
    (h : entryCountStep et m = .ok m') : StatFrame m m' := by
  rw [entryCountStep] at h
  split_ifs at h
  · rcases ebind_ok_iff.1 h with ⟨ec, -, h⟩
    simp only [pure, Except.pure, Except.ok.injEq] at h
    subst h
    simp [StatFrame]
  · simp only [pure, Except.pure, Except.ok.injEq] at h
    subst h
    exact statFrame_refl m

theorem processAssistant_inv (entry : Val) (msgs : List Val) (m : Meta)
    (r : List Val × Meta) (h : _process_assistant entry msgs m = .ok r)
    (hi : CountsInv m) : CountsInv r.2 := by
  have h0 := h
  cases entry <;> simp only [_process_assistant] at h
  case dict ed =>
    cases hmsg : dgetD ed "message" (.dict []) <;> simp only [hmsg] at h
    case dict md =>
      cases husage : dgetD md "usage" (.dict []) <;> simp only [husage] at h
      case dict ud =>
        obtain ⟨a, b, c, e, -, -, -, -, -, -, -, -, -, hinv⟩ :=
          processAssistant_spec ed md ud msgs m r hmsg husage h0
        exact hinv hi
      all_goals (rcases ebind_ok_iff.1 h with ⟨-, -, h⟩; simp at h)
    all_goals simp at h
  all_goals simp at h

set_option maxHeartbeats 1000000 in
theorem parseStep_inv (entry : Val) (st st' : PState)
    (h : parseStep entry st = .ok st') (hi : CountsInv st.metadata) :
    CountsInv st'.metadata := by
  rw [parseStep] at h
  rcases ebind_ok_iff.1 h with ⟨et, -, h⟩
  rcases ebind_ok_iff.1 h with ⟨ts0, -, h⟩
  rcases ebind_ok_iff.1 h with ⟨ts, -, h⟩
  rcases ebind_ok_iff.1 h with ⟨m2, hec, h⟩
  rcases ebind_ok_iff.1 h with ⟨sc, -, h⟩
  have hc1 : CountsInv m2 := by
    obtain ⟨-, -, -, -, -, w6, w7⟩ := entryCount_frame _ _ _ hec
    rw [CountsInv, w6, w7]
    split
    · simpa [CountsInv] using hi
    · exact hi
  generalize hM3 :
    (if truthy sc then
      { m2 with sidechain_messages := m2.sidechain_messages + 1 } else m2) = M3 at h
  have hc2 : CountsInv M3 := by
    rw [← hM3]
    split
    · simpa [CountsInv] using hc1
    · exact hc1
  split_ifs at h
  · rcases ebind_ok_iff.1 h with ⟨ru, hu, h⟩
    simp only [Except.ok.injEq] at h
    subst h
    obtain ⟨-, -, -, -, -, w6, w7⟩ := processUser_frame _ _ _ _ hu
    rw [CountsInv, w6, w7]
    exact hc2
  · rcases ebind_ok_iff.1 h with ⟨ra, ha, h⟩
    simp only [Except.ok.injEq] at h
    subst h
    exact processAssistant_inv _ _ _ _ ha hc2
  · rcases ebind_ok_iff.1 h with ⟨rs, hs, h⟩
    simp only [Except.ok.injEq] at h
    subst h
    obtain ⟨-, -, -, -, -, w6, w7⟩ := processSystem_frame _ _ _ _ hs
    rw [CountsInv, w6, w7]
    exact hc2
  · rcases ebind_ok_iff.1 h with ⟨mp, -, h⟩
    simp only [Except.ok.injEq] at h
    subst h
    exact hc2
  · simp only [Except.ok.injEq] at h
    subst h
    exact hc2

theorem parseLoop_inv :
    ∀ (lines : List (Option Val)) (st st' : PState),
      parseLoop lines st = .ok st' → CountsInv st.metadata →
      CountsInv st'.metadata := by
  intro lines
  induction lines with
  | nil =>
    intro st st' h hi
    simp only [parseLoop, Except.ok.injEq] at h
    subst h
    exact hi
  | cons l rest ih =>
    intro st st' h hi
    cases l with
    | none => exact ih st st' h hi
    | some e =>
      rw [parseLoop] at h
      rcases ebind_ok_iff.1 h with ⟨st1, hstep, h⟩
      exact ih st1 st' h (parseStep_inv e st st1 hstep hi)

/-! ## Claim C1 — tool-result classifier -/

/-- C1 (corrected): the classifier returns absent exactly for non-dict
inputs; whenever it returns a record, the record's kind is the one the
spec's fixed-priority key-presence tests (§4.3) select, in that order —
in particular a mapping with both `stdout` and `filePath`+`newString`
classifies as `bash` — and an unmatched mapping classifies `unknown`;
but it does not return a record for every mapping: it raises precisely
on a mapping matched by the web-search test whose `results` value has
no length. -/
theorem c1_classifier_fixed_priority :
    (∀ (v : Val) (slug : Val),
      _parse_tool_result v slug = .ok none ↔ isDictV v = false) ∧
    (∀ (d : List (String × Val)) (slug : Val) (r : List (String × Val)),
      _parse_tool_result (.dict d) slug = .ok (some r) →
        dget? r "result_type" = some (.str (specKindOfResult d))) ∧
    (∀ (d : List (String × Val)) (slug : Val),
      (_parse_tool_result (.dict d) slug).isOk = false ↔
        (specKindOfResult d = "web_search" ∧
         sizedV (dgetD d "results" (.list [])) = false)) ∧
    ((_parse_tool_result
        (.dict [("stdout", .str "ok"), ("filePath", .str "f"), ("newString", .str "n")])
        .null).map (Option.map fun r => dgetD r "result_type" .null) =
      .ok (some (.str "bash"))) := by
  refine ⟨?_, ?_, ?_, ?_⟩
  · intro v slug
    cases v with
    | dict d =>
      simp only [isDictV, Bool.true_eq_false, iff_false]
      intro h
      rcases parse_tr_master d slug with ⟨hweb, hok⟩
      by_cases hw : specKindOfResult d = "web_search" ∧
          sizedV (dgetD d "results" (.list [])) = false
      · rw [hweb hw] at h
        simp at h
      · rcases hok hw with ⟨r, hr, -⟩
        rw [hr] at h
        simp at h
    | null => simp [_parse_tool_result, isDictV]
    | bool b => simp [_parse_tool_result, isDictV]
    | int n => simp [_parse_tool_result, isDictV]
    | str s => simp [_parse_tool_result, isDictV]
    | list xs => simp [_parse_tool_result, isDictV]
  · intro d slug r h
    rcases parse_tr_master d slug with ⟨hweb, hok⟩
    by_cases hw : specKindOfResult d = "web_search" ∧
        sizedV (dgetD d "results" (.list [])) = false
    · rw [hweb hw] at h
      simp at h
    · rcases hok hw with ⟨r', hr', hk'⟩
      rw [hr'] at h
      simp only [Except.ok.injEq, Option.some.injEq] at h
      subst h
      exact hk'
  · intro d slug
    rcases parse_tr_master d slug with ⟨hweb, hok⟩
    by_cases hw : specKindOfResult d = "web_search" ∧
        sizedV (dgetD d "results" (.list [])) = false
    · rw [hweb hw]
      simp [Except.isOk, Except.toBool, hw]
    · rcases hok hw with ⟨r', hr', -⟩
      rw [hr']
      simp [Except.isOk, Except.toBool, hw]
  · rfl

/-- C1 counterexample: the mapping `{"query": "q", "results": null}` is
matched by the web-search test, and the classifier raises `TypeError`
(`len(None)`) instead of returning a classified record. -/
theorem c1_counterexample_web_search_len :
    _parse_tool_result (.dict [("query", .str "q"), ("results", .null)]) .null =
      .error "TypeError: object has no len()" := rfl

/-! ## Claim C6 — files-touched deduction -/

/-- C6 (confirmed): the read bucket is the read set minus the written
and created sets (so it is disjoint from both), while the written and
created sets are reported unchanged. -/
theorem c6_files_touched_deduction :
    ∀ (fr fw fc : List String) (f : String),
      (f ∈ (_compute_files_touched fr fw fc).read ↔ f ∈ fr ∧ f ∉ fw ∧ f ∉ fc) ∧
      (f ∈ (_compute_files_touched fr fw fc).written ↔ f ∈ fw) ∧
      (f ∈ (_compute_files_touched fr fw fc).created ↔ f ∈ fc) ∧
      ¬ (f ∈ (_compute_files_touched fr fw fc).read ∧
         f ∈ (_compute_files_touched fr fw fc).written) ∧
      ¬ (f ∈ (_compute_files_touched fr fw fc).read ∧
         f ∈ (_compute_files_touched fr fw fc).created) := by
  intro fr fw fc f
  simp only [_compute_files_touched, pySortedStr, List.mem_mergeSort, List.mem_filter,
    List.mem_dedup, Bool.and_eq_true, Bool.not_eq_true', contains_false_iff]
  tauto

/-! ## Claim C4 — cost estimator -/

theorem estimateLoop_no_data :
    ∀ (msgs : List SMsg),
      (∀ m ∈ msgs, m.role = .assistant →
        (m.usage_input_tokens = 0 ∧ m.usage_output_tokens = 0) ∨
          _get_pricing m.model = none) →
      ∀ total : ℚ, (estimateLoop msgs total false).2 = false := by
  intro msgs
  induction msgs with
  | nil => intro _ total; rfl
  | cons m rest ih =>
    intro h total
    have hrest := fun m' hm' => h m' (List.mem_cons_of_mem _ hm')
    rw [estimateLoop]
    by_cases hrole : m.role ≠ .assistant
    · rw [if_pos hrole]
      exact ih hrest total
    · rw [if_neg hrole]
      rcases h m (List.mem_cons_self _ _) (not_not.1 hrole) with hz | hp
      · rw [if_pos hz]
        exact ih hrest total
      · by_cases hz : m.usage_input_tokens = 0 ∧ m.usage_output_tokens = 0
        · rw [if_pos hz]
          exact ih hrest total
        · rw [if_neg hz, hp]
          exact ih hrest total

/-- C4 (confirmed): one assistant message on a sonnet-priced model with
a million tokens each way is estimated at `3.0 + 15.0 = 18.0`; and a
session in which no assistant message both carries nonzero token counts
and matches a priced tier estimates to absent (`none`), never `0`. -/
theorem c4_cost_estimate :
    (_estimate_cost [sonnetMsg] = some 18) ∧
    (∀ msgs : List SMsg,
      (∀ m ∈ msgs, m.role = .assistant →
        (m.usage_input_tokens = 0 ∧ m.usage_output_tokens = 0) ∨
          _get_pricing m.model = none) →
      _estimate_cost msgs = none) := by
  constructor
  · have hp : _get_pricing "claude-sonnet-4-5" = some (3, 15) := rfl
    rw [_estimate_cost]
    simp only [estimateLoop, sonnetMsg, hp]
    norm_num [round4]
  · intro msgs h
    rw [_estimate_cost]
    simp [estimateLoop_no_data msgs h 0]

/-! ## Claim C10 — orphan bash results are discarded -/

theorem crLoop_append (a b : List SMsg) (st : CRState) :
    crLoop (a ++ b) st = crLoop a st >>= crLoop b := by
  induction a generalizing st with
  | nil => simp [crLoop, Bind.bind, Except.bind]
  | cons m rest ih =>
    rw [List.cons_append]
    cases hc : crStep m st with
    | error e => simp [crLoop, Bind.bind, Except.bind, hc]
    | ok st1 => simp [crLoop, Bind.bind, Except.bind, hc, ih]

/-- C10 (confirmed): a bash-classified result arriving while no Bash
invocation is pending is silently discarded — the session computes the
same command list as the session without that message, so it yields no
entry and leaves all later pairings untouched. -/
theorem c10_orphan_bash_result_discarded
    (pre post : List SMsg) (msg : SMsg) (st1 : CRState)
    (h1 : msg.role = .user) (h2 : isBashResult msg = true)
    (h3 : crLoop pre ⟨[], []⟩ = .ok st1) (h4 : st1.pending = []) :
    _compute_commands_run (pre ++ msg :: post) =
      _compute_commands_run (pre ++ post) := by
  have hstep : crStep msg st1 = .ok st1 := by
    simp [crStep, h1, h2, h4, Bind.bind, Except.bind, pure, Except.pure]
  rw [_compute_commands_run, _compute_commands_run, crLoop_append, crLoop_append, h3]
  simp [Bind.bind, Except.bind, crLoop, hstep]

/-! ## Claim C9 — FIFO pairing of bash invocations and results -/

theorem storeFirst_fresh (pend : List (Val × List (String × Val))) (k : Val)
    (e : List (String × Val)) (h : ∀ p ∈ pend, flatEq p.1 k = false) :
    storeFirst pend k e = pend ++ [(k, e)] := by
  induction pend with
  | nil => rfl
  | cons p rest ih =>
    rw [storeFirst, if_neg (by simp [h p (List.mem_cons_self _ _)]),
      ih (fun q hq => h q (List.mem_cons_of_mem _ hq))]
    rfl

theorem pendingInsert_fresh (pend : List (Val × List (String × Val))) (k : Val)
    (e : List (String × Val)) (hk : hashableV k = true)
    (h : ∀ p ∈ pend, flatEq p.1 k = false) :
    pendingInsert pend k e = .ok (pend ++ [(k, e)]) := by
  rw [pendingInsert, if_pos hk, storeFirst_fresh _ _ _ h]

theorem idsOfTu_cons (tu : ToolUse) (rest : List ToolUse) :
    idsOfTu (tu :: rest) =
      (if tu.name = "Bash" ∧ truthy (dgetD tu.input "command" (.str "")) then [tu.id]
        else []) ++ idsOfTu rest := by
  by_cases hc : tu.name = "Bash" ∧ truthy (dgetD tu.input "command" (.str "")) = true
  · simp [idsOfTu, List.filterMap_cons, hc]
  · simp [idsOfTu, List.filterMap_cons, hc]

theorem crTuLoop_spec (ts : Val) :
    ∀ (tus : List ToolUse) (pend : List (Val × List (String × Val))),
      (∀ v ∈ idsOfTu tus, hashableV v = true) →
      ((pend.map Prod.fst ++ idsOfTu tus).Pairwise (fun a b => flatEq a b = false)) →
      ∃ pend', crTuLoop ts tus pend = .ok pend' ∧
        pend'.map Prod.fst = pend.map Prod.fst ++ idsOfTu tus ∧
        pend'.map Prod.snd = fifoEnq ts tus (pend.map Prod.snd) := by
  intro tus
  induction tus with
  | nil =>
    intro pend _ _
    exact ⟨pend, rfl, by simp [idsOfTu], rfl⟩
  | cons tu rest ih =>
    intro pend hh hp
    by_cases hname : tu.name = "Bash"
    · by_cases hcmd : truthy (dgetD tu.input "command" (.str "")) = true
      · have hids : idsOfTu (tu :: rest) = tu.id :: idsOfTu rest := by
          rw [idsOfTu_cons, if_pos ⟨hname, hcmd⟩]
          rfl
        rw [hids] at hh hp
        have hfresh : ∀ p ∈ pend, flatEq p.1 tu.id = false := by
          intro p hpmem
          exact (List.pairwise_append.1 hp).2.2 p.1 (List.mem_map_of_mem _ hpmem)
            tu.id (by simp)
        have hhash : hashableV tu.id = true := hh tu.id (by simp)
        have hstep : crTuLoop ts (tu :: rest) pend =
            crTuLoop ts rest (pend ++ [(tu.id, [("command", dgetD tu.input "command" (.str "")), ("timestamp", ts)])]) := by
          rw [crTuLoop, if_pos hname, if_pos hcmd,
            pendingInsert_fresh _ _ _ hhash hfresh]
          rfl
        obtain ⟨pend', h1, h2, h3⟩ := ih
          (pend ++ [(tu.id, [("command", dgetD tu.input "command" (.str "")), ("timestamp", ts)])])
          (fun v hv => hh v (List.mem_cons_of_mem _ hv))
          (by
            rw [List.map_append, List.append_assoc]
            simpa using hp)
        refine ⟨pend', by rw [hstep]; exact h1, ?_, ?_⟩
        · rw [h2, hids]
          simp
        · rw [h3, fifoEnq, if_pos hname, if_pos hcmd]
          simp
      · have hids : idsOfTu (tu :: rest) = idsOfTu rest := by
          rw [idsOfTu_cons, if_neg (by simp [hcmd])]
          rfl
        rw [hids] at hh hp
        have hstep : crTuLoop ts (tu :: rest) pend = crTuLoop ts rest pend := by
          rw [crTuLoop, if_pos hname, if_neg hcmd]
          rfl
        obtain ⟨pend', h1, h2, h3⟩ := ih pend hh hp
        refine ⟨pend', by rw [hstep]; exact h1, by rw [hids]; exact h2, ?_⟩
        rw [h3, fifoEnq, if_pos hname, if_neg hcmd]
    · have hids : idsOfTu (tu :: rest) = idsOfTu rest := by
        rw [idsOfTu_cons, if_neg (by simp [hname])]
        rfl
      rw [hids] at hh hp
      have hstep : crTuLoop ts (tu :: rest) pend = crTuLoop ts rest pend := by
        rw [crTuLoop, if_neg hname]
        rfl
      obtain ⟨pend', h1, h2, h3⟩ := ih pend hh hp
      refine ⟨pend', by rw [hstep]; exact h1, by rw [hids]; exact h2, ?_⟩
      rw [h3, fifoEnq, if_neg hname]

theorem crLoop_fifo :
    ∀ (msgs : List SMsg) (pend : List (Val × List (String × Val)))
      (cmds : List (List (String × Val))),
      (∀ v ∈ pend.map Prod.fst ++ bashIds msgs, hashableV v = true) →
      ((pend.map Prod.fst ++ bashIds msgs).Pairwise (fun a b => flatEq a b = false)) →
      ∃ st', crLoop msgs ⟨pend, cmds⟩ = .ok st' ∧
        st'.pending.map Prod.snd = (fifoLoop msgs ⟨pend.map Prod.snd, cmds⟩).queue ∧
        st'.commands = (fifoLoop msgs ⟨pend.map Prod.snd, cmds⟩).commands := by
  intro msgs
  induction msgs with
  | nil =>
    intro pend cmds _ _
    exact ⟨⟨pend, cmds⟩, rfl, rfl, rfl⟩
  | cons m rest ih =>
    intro pend cmds hh hp
    by_cases hA : m.role = .assistant ∧ ¬ m.tool_uses.isEmpty
    · have hbids : bashIds (m :: rest) = idsOfTu m.tool_uses ++ bashIds rest := by
        rw [bashIds, if_pos hA]
      rw [hbids] at hh hp
      obtain ⟨pend1, htu, hkeys, hsnd⟩ := crTuLoop_spec m.timestamp m.tool_uses pend
        (fun v hv => hh v (by simp [hv]))
        (by
          rw [← List.append_assoc] at hp
          exact hp.sublist (List.sublist_append_left _ _))
      have hstep : crStep m ⟨pend, cmds⟩ = .ok ⟨pend1, cmds⟩ := by
        simp [crStep, hA.1, hA.2, htu, Bind.bind, Except.bind, pure, Except.pure]
      have hfstep : fifoStep m ⟨pend.map Prod.snd, cmds⟩ =
          ⟨fifoEnq m.timestamp m.tool_uses (pend.map Prod.snd), cmds⟩ := by
        simp [fifoStep, hA.1, hA.2]
      obtain ⟨st', hloop, hq, hc⟩ := ih pend1 cmds
        (by
          intro v hv
          apply hh
          rw [hkeys] at hv
          simpa [List.append_assoc] using hv)
        (by
          rw [hkeys, List.append_assoc]
          exact hp)
      refine ⟨st', ?_, ?_, ?_⟩
      · simp only [crLoop, hstep, Bind.bind, Except.bind]
        exact hloop
      · rw [hq, fifoLoop, hfstep, ← hsnd]
      · rw [hc, fifoLoop, hfstep, ← hsnd]
    · have hbids : bashIds (m :: rest) = bashIds rest := by
        rw [bashIds, if_neg hA]
        rfl
      rw [hbids] at hh hp
      by_cases hB : m.role = .user ∧ isBashResult m = true
      · cases pend with
        | nil =>
          have hstep : crStep m ⟨[], cmds⟩ = .ok ⟨[], cmds⟩ := by
            simp [crStep, hA, hB.1, hB.2, Bind.bind, Except.bind, pure, Except.pure]
          have hfstep : fifoStep m ⟨[], cmds⟩ = ⟨[], cmds⟩ := by
            simp [fifoStep, hA, hB.1, hB.2]
          obtain ⟨st', hloop, hq, hc⟩ := ih [] cmds hh hp
          refine ⟨st', ?_, ?_, ?_⟩
          · simp only [crLoop, hstep, Bind.bind, Except.bind]
            exact hloop
          · rw [hq]
            simp only [List.map_nil]
            rw [fifoLoop, hfstep]
          · rw [hc]
            simp only [List.map_nil]
            rw [fifoLoop, hfstep]
        | cons p pend' =>
          have hstep : crStep m ⟨p :: pend', cmds⟩ =
              .ok ⟨pend', cmds ++ [annotateResult p.2 ((m.tool_result_parsed).getD [])]⟩ := by
            simp [crStep, hA, hB.1, hB.2, Bind.bind, Except.bind, pure, Except.pure]
          have hfstep : fifoStep m ⟨(p :: pend').map Prod.snd, cmds⟩ =
              ⟨pend'.map Prod.snd, cmds ++ [annotateResult p.2 ((m.tool_result_parsed).getD [])]⟩ := by
            simp [fifoStep, hA, hB.1, hB.2]
          obtain ⟨st', hloop, hq, hc⟩ := ih pend'
            (cmds ++ [annotateResult p.2 ((m.tool_result_parsed).getD [])])
            (fun v hv => hh v (by
              rcases List.mem_append.1 hv with h1 | h1
              · exact List.mem_append.2 (.inl (List.mem_cons_of_mem _ (by simpa using h1)))
              · exact List.mem_append.2 (.inr h1)))
            (by
              have := hp
              rw [List.map_cons, List.cons_append] at this
              exact (List.pairwise_cons.1 this).2)
          refine ⟨st', ?_, ?_, ?_⟩
          · simp only [crLoop, hstep, Bind.bind, Except.bind]
            exact hloop
          · rw [hq, fifoLoop, hfstep]
          · rw [hc, fifoLoop, hfstep]
      · have hstep : crStep m ⟨pend, cmds⟩ = .ok ⟨pend, cmds⟩ := by
          rw [crStep, if_neg hA]
          simp only [Bind.bind, Except.bind, pure, Except.pure]
          rw [if_neg hB]
        have hfstep : fifoStep m ⟨pend.map Prod.snd, cmds⟩ = ⟨pend.map Prod.snd, cmds⟩ := by
          rw [fifoStep, if_neg hA, if_neg hB]
        obtain ⟨st', hloop, hq, hc⟩ := ih pend cmds hh hp
        refine ⟨st', ?_, ?_, ?_⟩
        · simp only [crLoop, hstep, Bind.bind, Except.bind]
          exact hloop
        · rw [hq, fifoLoop, hfstep]
        · rw [hc, fifoLoop, hfstep]

/-- C9 (corrected): provided the Bash tool-use ids of the session are
pairwise distinct (and hashable) — the pending map is keyed by id — the
computation matches the spec's strict FIFO pairing exactly: each
bash-classified result is paired with the earliest still-unmatched
invocation, and unmatched invocations are reported with absent outcome
fields.  With a duplicated id the earlier pending invocation is
overwritten and never reported (see the counterexample). -/
theorem c9_fifo_pairing (msgs : List SMsg)
    (h1 : (bashIds msgs).Pairwise (fun a b => flatEq a b = false))
    (h2 : ∀ v ∈ bashIds msgs, hashableV v = true) :
    _compute_commands_run msgs = .ok (fifoCommandsSpec msgs) := by
  obtain ⟨st', hloop, hq, hc⟩ := crLoop_fifo msgs [] [] (by simpa using h2)
    (by simpa using h1)
  simp only [List.map_nil] at hq hc
  rw [_compute_commands_run]
  simp only [hloop, Bind.bind, Except.bind]
  simp only [crFinish, fifoCommandsSpec]
  rw [hc, ← hq, List.map_map]
  rfl

/-- C9 witness: the claim's end-to-end scenario — two Bash invocations
(with distinct ids) followed by their two results — pairs 1:1 in
invocation order with each invocation's own exit code. -/
theorem c9_fifo_pairing_witness :
    _compute_commands_run twoBashMsgs = .ok (fifoCommandsSpec twoBashMsgs) :=
  c9_fifo_pairing twoBashMsgs (by decide) (by decide)

/-- C9 counterexample: with two Bash invocations sharing a tool-use id,
the dict-keyed pending map overwrites the first invocation, so the code
reports a single command (`"b"`, paired with the first result's exit
code 0) while the claimed FIFO pairing reports both invocations, each
with its own exit code. -/
theorem c9_counterexample_duplicate_ids :
    _compute_commands_run dupIdMsgs =
      .ok [[("command", .str "b"), ("timestamp", .null), ("exit_code", .int 0),
        ("is_error", .bool false), ("interrupted", .bool false),
        ("return_code_interpretation", .null)]] ∧
    fifoCommandsSpec dupIdMsgs =
      [[("command", .str "a"), ("timestamp", .null), ("exit_code", .int 0),
        ("is_error", .bool false), ("interrupted", .bool false),
        ("return_code_interpretation", .null)],
       [("command", .str "b"), ("timestamp", .null), ("exit_code", .int 1),
        ("is_error", .bool false), ("interrupted", .bool false),
        ("return_code_interpretation", .null)]] := by
  constructor <;> rfl

/-! ## Claim C8 — line skipping in `parse_session` -/

theorem parseLoop_filter (lines : List (Option Val)) :
    ∀ st, parseLoop lines st = parseLoop (lines.filter Option.isSome) st := by
  induction lines with
  | nil => intro st; rfl
  | cons l rest ih =>
    intro st
    cases l with
    | none => simpa [parseLoop, List.filter] using ih st
    | some e =>
      simp only [parseLoop, List.filter, Option.isSome]
      cases h : parseStep e st <;> simp [Bind.bind, Except.bind, h, ih]

/-- C8 (corrected): empty lines and lines `json.loads` rejects are
silently skipped — parsing a file gives exactly the result of parsing
the file with those lines removed. -/
theorem c8_undecodable_lines_skipped (lines : List (Option Val)) :
    parse_session lines = parse_session (lines.filter Option.isSome) :=
  parseLoop_filter lines _

/-- C8 counterexample: a line holding well-formed JSON that is not an
object (here `[1]`) is not skipped — `entry.get("type")` raises
`AttributeError` and the whole parse fails instead of producing a
session record. -/
theorem c8_counterexample_nonobject_line :
    parse_session [some (.list [.int 1])] =
      .error "AttributeError: .get on a non-dict value" := rfl

/-! ## Claim C7 — tool-call histogram invariant -/

/-- C7 (confirmed): for every session file that parses, the per-tool
call histogram of the resulting metadata sums to `total_tool_calls`;
the equality is an invariant preserved by every event-processor step
starting from the empty accumulator (`parseLoop_inv`). -/
theorem c7_tool_call_histogram (lines : List (Option Val)) (st : PState)
    (h : parse_session lines = .ok st) :
    sumCounts st.metadata.tool_call_counts = st.metadata.total_tool_calls :=
  parseLoop_inv lines ⟨[], initMeta⟩ st h rfl

/-- C7 witness: a session with a single assistant entry invoking two
tools parses, and its histogram sums to the call total. -/
theorem c7_tool_call_histogram_witness :
    ∃ st, parse_session [some twoToolsEntry] = .ok st ∧
      sumCounts st.metadata.tool_call_counts = st.metadata.total_tool_calls :=
  ⟨_, rfl, c7_tool_call_histogram [some twoToolsEntry] _ rfl⟩

/-! ## Claim C2 — the sentinel-model guard -/

/-- C2 (corrected): the sentinel test `model and model != "<synthetic>"`
guards only the `models_used` registry; token accounting is NOT skipped.
For an assistant record whose model is `"<synthetic>"`, `models_used` is
unchanged while each of the four token totals still accumulates the
`or 0` value of the corresponding usage field. -/
theorem c2_sentinel_model (ed md ud : List (String × Val)) (msgs : List Val)
    (m : Meta) (r : List Val × Meta)
    (h1 : dgetD ed "message" (.dict []) = .dict md)
    (h2 : dgetD md "usage" (.dict []) = .dict ud)
    (hmodel : dgetD md "model" (.str "") = .str "<synthetic>")
    (h3 : _process_assistant (.dict ed) msgs m = .ok r) :
    r.2.models_used = m.models_used ∧
    ∃ a b c e,
      addTok (dgetD ud "input_tokens" .null) = .ok a ∧
      addTok (dgetD ud "output_tokens" .null) = .ok b ∧
      addTok (dgetD ud "cache_read_input_tokens" .null) = .ok c ∧
      addTok (dgetD ud "cache_creation_input_tokens" .null) = .ok e ∧
      r.2.total_input_tokens = m.total_input_tokens + a ∧
      r.2.total_output_tokens = m.total_output_tokens + b ∧
      r.2.total_cache_read_tokens = m.total_cache_read_tokens + c ∧
      r.2.total_cache_creation_tokens = m.total_cache_creation_tokens + e := by
  obtain ⟨a, b, c, e, g1, g2, g3, g4, g5, g6, g7, g8, g9, -⟩ :=
    processAssistant_spec ed md ud msgs m r h1 h2 h3
  refine ⟨g9 ?_, a, b, c, e, g1, g2, g3, g4, g5, g6, g7, g8⟩
  rw [hmodel]
  rfl

/-- C2 counterexample: an assistant entry with model `"<synthetic>"` and
`usage.input_tokens = 5` leaves `models_used` empty but still adds the
five tokens to the session's input total — the claimed "no token
accounting" is false. -/
theorem c2_counterexample_synthetic_tokens :
    (_process_assistant synthEntry [] initMeta).map
        (fun r => (r.2.models_used, r.2.total_input_tokens)) =
      .ok ([], 5) := rfl

/-- C2 witness: the amended statement at the concrete sentinel entry. -/
theorem c2_sentinel_model_witness :
    ∃ r, _process_assistant synthEntry [] initMeta = .ok r ∧
      (r.2.models_used = initMeta.models_used ∧
       ∃ a b c e,
         addTok (dgetD [("input_tokens", (.int 5 : Val))] "input_tokens" .null) = .ok a ∧
         addTok (dgetD [("input_tokens", (.int 5 : Val))] "output_tokens" .null) = .ok b ∧
         addTok (dgetD [("input_tokens", (.int 5 : Val))] "cache_read_input_tokens" .null) = .ok c ∧
         addTok (dgetD [("input_tokens", (.int 5 : Val))] "cache_creation_input_tokens" .null) = .ok e ∧
         r.2.total_input_tokens = initMeta.total_input_tokens + a ∧
         r.2.total_output_tokens = initMeta.total_output_tokens + b ∧
         r.2.total_cache_read_tokens = initMeta.total_cache_read_tokens + c ∧
         r.2.total_cache_creation_tokens = initMeta.total_cache_creation_tokens + e) :=
  ⟨_, rfl, c2_sentinel_model
    [("type", .str "assistant"),
     ("message", .dict [("model", .str "<synthetic>"),
       ("usage", .dict [("input_tokens", .int 5)])])]
    [("model", .str "<synthetic>"), ("usage", .dict [("input_tokens", .int 5)])]
    [("input_tokens", .int 5)] [] initMeta _ rfl rfl rfl rfl⟩

/-! ## Claim C3 — null usage fields accumulate as zero -/

/-- C3 (confirmed): a null token field never raises at the accumulation
point (`x or 0` yields `0`), and an assistant record whose four usage
token fields are all null or absent leaves each of the four session
token totals unchanged. -/
theorem c3_null_usage_fields (ed md ud : List (String × Val)) (msgs : List Val)
    (m : Meta) (r : List Val × Meta)
    (h1 : dgetD ed "message" (.dict []) = .dict md)
    (h2 : dgetD md "usage" (.dict []) = .dict ud)
    (hin : dgetD ud "input_tokens" .null = .null)
    (hout : dgetD ud "output_tokens" .null = .null)
    (hcr : dgetD ud "cache_read_input_tokens" .null = .null)
    (hcc : dgetD ud "cache_creation_input_tokens" .null = .null)
    (h3 : _process_assistant (.dict ed) msgs m = .ok r) :
    addTok Val.null = .ok 0 ∧
    r.2.total_input_tokens = m.total_input_tokens ∧
    r.2.total_output_tokens = m.total_output_tokens ∧
    r.2.total_cache_read_tokens = m.total_cache_read_tokens ∧
    r.2.total_cache_creation_tokens = m.total_cache_creation_tokens := by
  obtain ⟨a, b, c, e, g1, g2, g3, g4, g5, g6, g7, g8, -, -⟩ :=
    processAssistant_spec ed md ud msgs m r h1 h2 h3
  rw [hin] at g1
  rw [hout] at g2
  rw [hcr] at g3
  rw [hcc] at g4
  simp only [addTok, Except.ok.injEq] at g1 g2 g3 g4
  refine ⟨rfl, ?_, ?_, ?_, ?_⟩
  · rw [g5, ← g1]
    ring
  · rw [g6, ← g2]
    ring
  · rw [g7, ← g3]
    ring
  · rw [g8, ← g4]
    ring

/-- C3 witness: the amended statement at the regression-test entry, and
the spec scenario — a session of two such records parses with all four
totals equal to zero. -/
theorem c3_null_usage_fields_witness :
    (∃ r, _process_assistant nullUsageEntry [] initMeta = .ok r ∧
      (addTok Val.null = .ok 0 ∧
       r.2.total_input_tokens = initMeta.total_input_tokens ∧
       r.2.total_output_tokens = initMeta.total_output_tokens ∧
       r.2.total_cache_read_tokens = initMeta.total_cache_read_tokens ∧
       r.2.total_cache_creation_tokens = initMeta.total_cache_creation_tokens)) ∧
    (parse_session [some nullUsageEntry, some nullUsageEntry]).map
        (fun st => (st.metadata.total_input_tokens,
          st.metadata.total_output_tokens,
          st.metadata.total_cache_read_tokens,
          st.metadata.total_cache_creation_tokens)) =
      .ok (0, 0, 0, 0) :=
  ⟨⟨_, rfl, c3_null_usage_fields
    [("type", .str "assistant"), ("uuid", .str "test-uuid"),
     ("parentUuid", .null), ("timestamp", .str "2026-01-01T00:00:00.000Z"),
     ("message", .dict [("model", .str "claude-sonnet-4-5"),
       ("content", .list [.dict [("type", .str "text"), ("text", .str "Hello")]]),
       ("stop_reason", .str "end_turn"),
       ("usage", .dict [("input_tokens", .null), ("output_tokens", .null),
         ("cache_read_input_tokens", .null),
         ("cache_creation_input_tokens", .null)])])]
    [("model", .str "claude-sonnet-4-5"),
     ("content", .list [.dict [("type", .str "text"), ("text", .str "Hello")]]),
     ("stop_reason", .str "end_turn"),
     ("usage", .dict [("input_tokens", .null), ("output_tokens", .null),
       ("cache_read_input_tokens", .null),
       ("cache_creation_input_tokens", .null)])]
    [("input_tokens", .null), ("output_tokens", .null),
     ("cache_read_input_tokens", .null), ("cache_creation_input_tokens", .null)]
    [] initMeta _ rfl rfl rfl rfl rfl rfl rfl⟩, rfl⟩

/-- C10 witness: an orphan bash result placed before any Bash invocation
is discarded — the command list equals that of the session without it. -/
theorem c10_orphan_bash_result_discarded_witness :
    (bashResMsg (.int 7)).role = .user ∧
    isBashResult (bashResMsg (.int 7)) = true ∧
    crLoop [] ⟨[], []⟩ = .ok ⟨[], []⟩ ∧
    (⟨[], []⟩ : CRState).pending = [] ∧
    _compute_commands_run ([] ++ bashResMsg (.int 7) :: twoBashMsgs) =
      _compute_commands_run ([] ++ twoBashMsgs) :=
  ⟨rfl, rfl, rfl, rfl,
    c10_orphan_bash_result_discarded [] twoBashMsgs (bashResMsg (.int 7))
      ⟨[], []⟩ rfl rfl rfl rfl⟩

end CCCB
